import Mathlib

/-!
Verification of the chart-scaffolding subsystem (`pkg/chartutil/create.go`,
`cmd/helm/manifest.go` and the manifest-generator file of the same package):
name validation, placeholder substitution, the new-unit / add-module mode
decision, conflict-safe file writing and values-file composition, modelled
as pure functions over an explicit filesystem state.

Go strings are modelled as `String` (a wrapped `List Char`); every string
the claims quantify over is ASCII, so the rune-level view used here and
Go's byte-level view coincide.
-/

namespace Chartutil

/-! ## String machinery: Go `strings.ReplaceAll` -/

/-- Tail-recursive list length (used as fuel so that evaluating
`replaceAll` on concrete inputs stays shallow). -/
def listLen (acc : Nat) : List Char → Nat
  | [] => acc
  | _ :: cs => listLen (acc + 1) cs

/-- One fuel-indexed scan step of Go `strings.ReplaceAll`: at each position,
if `pat` is a prefix of the remaining input, emit `repl` and skip the match,
otherwise emit the current character.  Written with a bare `Nat.rec` so the
kernel can evaluate it lazily on concrete inputs. -/
def replaceAllF (pat repl : List Char) (fuel : Nat) : List Char → List Char :=
  Nat.rec (motive := fun _ => List Char → List Char)
    (fun s => s)
    (fun _ ih s =>
      match s with
      | [] => []
      | c :: cs =>
        if pat.isPrefixOf (c :: cs) then repl ++ ih (cs.drop (pat.length - 1))
        else c :: ih cs)
    fuel

/-- Model of Go `strings.ReplaceAll(s, pat, repl)`: replaces all
non-overlapping leftmost instances of `pat` in `s` by `repl`.  (Go's
behaviour for an empty `pat` — interspersing `repl` — is never exercised
by this code base: every call site passes a fixed non-empty marker.) -/
def replaceAll (pat repl s : List Char) : List Char :=
  replaceAllF pat repl (listLen 0 s) s

theorem replaceAllF_zero (pat repl : List Char) (s : List Char) :
    replaceAllF pat repl 0 s = s := rfl

theorem replaceAllF_succ_nil (pat repl : List Char) (f : Nat) :
    replaceAllF pat repl (f + 1) [] = [] := rfl

theorem replaceAllF_succ_cons (pat repl : List Char) (f : Nat) (c : Char) (cs : List Char) :
    replaceAllF pat repl (f + 1) (c :: cs) =
      if pat.isPrefixOf (c :: cs) then
        repl ++ replaceAllF pat repl f (cs.drop (pat.length - 1))
      else c :: replaceAllF pat repl f cs := rfl

theorem replaceAllF_nil (pat repl : List Char) (f : Nat) :
    replaceAllF pat repl f [] = [] := by
  cases f <;> rfl

theorem listLen_eq (s : List Char) : ∀ acc, listLen acc s = acc + s.length := by
  induction s with
  | nil => intro acc; simp [listLen]
  | cons c cs ih => intro acc; simp [listLen, ih]; omega

/-- The fuel is irrelevant as long as it is at least the input length
(and the pattern is non-empty, so every step consumes a character). -/
theorem replaceAllF_congr (pat repl : List Char) :
    ∀ f g s, s.length ≤ f → s.length ≤ g →
      replaceAllF pat repl f s = replaceAllF pat repl g s := by
  intro f
  induction f with
  | zero =>
    intro g s hf _
    have : s = [] := by
      cases s with
      | nil => rfl
      | cons c cs => simp at hf
    subst this
    simp [replaceAllF_nil, replaceAllF_zero]
  | succ f ih =>
    intro g s hf hg
    cases s with
    | nil => simp [replaceAllF_nil]
    | cons c cs =>
      cases g with
      | zero => simp at hg
      | succ g =>
        rw [replaceAllF_succ_cons, replaceAllF_succ_cons]
        simp only [List.length_cons] at hf hg
        by_cases hp : pat.isPrefixOf (c :: cs) = true
        · simp only [hp, if_pos]
          have hlen : (cs.drop (pat.length - 1)).length ≤ f := by
            simp [List.length_drop]; omega
          have hlen' : (cs.drop (pat.length - 1)).length ≤ g := by
            simp [List.length_drop]; omega
          rw [ih g _ hlen hlen']
        · simp only [hp, if_neg, Bool.false_eq_true, not_false_iff]
          rw [ih g cs (by omega) (by omega)]

theorem replaceAll_nil (pat repl : List Char) : replaceAll pat repl [] = [] := by
  simp [replaceAll, replaceAllF_nil]

/-- Skipping one character that cannot start a match of `pat = '<' :: pt`. -/
theorem replaceAll_cons_skip (pt repl : List Char) (c : Char) (cs : List Char)
    (hc : c ≠ '<') :
    replaceAll ('<' :: pt) repl (c :: cs) = c :: replaceAll ('<' :: pt) repl cs := by
  have hpre : ('<' :: pt).isPrefixOf (c :: cs) = false := by
    simp [List.isPrefixOf]
    intro h
    exact absurd h.symm hc
  rw [replaceAll, listLen_eq, List.length_cons]
  rw [show (0 + (cs.length + 1)) = cs.length + 1 by omega]
  rw [replaceAllF_succ_cons]
  simp only [hpre, Bool.false_eq_true, if_false]
  rw [replaceAll, listLen_eq]
  rw [replaceAllF_congr ('<' :: pt) repl cs.length (0 + cs.length) cs le_rfl (by omega)]

/-- A match of the full pattern at the head of the input. -/
theorem replaceAll_pat_append (pat repl t : List Char) (hpat : pat ≠ []) :
    replaceAll pat repl (pat ++ t) = repl ++ replaceAll pat repl t := by
  cases pat with
  | nil => exact absurd rfl hpat
  | cons p pt =>
    rw [replaceAll, listLen_eq, List.length_append, List.length_cons]
    rw [show 0 + (pt.length + 1 + t.length) = (pt.length + t.length) + 1 by omega]
    rw [List.cons_append, replaceAllF_succ_cons]
    have hpre : (p :: pt).isPrefixOf (p :: (pt ++ t)) = true := by
      rw [List.isPrefixOf_iff_prefix]
      exact ⟨t, by simp⟩
    simp only [hpre, if_pos]
    have hdrop : (pt ++ t).drop ((p :: pt).length - 1) = t := by
      simp [List.length_cons]
    rw [hdrop]
    congr 1
    rw [replaceAll, listLen_eq]
    exact replaceAllF_congr (p :: pt) repl _ _ t (by omega) (by omega)

/-- Characters of the output come from the input or the replacement. -/
theorem mem_replaceAllF (pat repl : List Char) :
    ∀ f s c, c ∈ replaceAllF pat repl f s → c ∈ s ∨ c ∈ repl := by
  intro f
  induction f with
  | zero => intro s c h; rw [replaceAllF_zero] at h; exact Or.inl h
  | succ f ih =>
    intro s c h
    cases s with
    | nil => rw [replaceAllF_succ_nil] at h; simp at h
    | cons a cs =>
      rw [replaceAllF_succ_cons] at h
      by_cases hp : pat.isPrefixOf (a :: cs) = true
      · simp only [hp, if_pos, List.mem_append] at h
        rcases h with h | h
        · exact Or.inr h
        · rcases ih _ c h with h' | h'
          · exact Or.inl (List.mem_cons_of_mem a (List.drop_subset _ cs h'))
          · exact Or.inr h'
      · simp only [hp, Bool.false_eq_true, if_false, List.mem_cons] at h
        rcases h with h | h
        · exact Or.inl (h ▸ List.mem_cons_self a cs)
        · rcases ih _ c h with h' | h'
          · exact Or.inl (List.mem_cons_of_mem a h')
          · exact Or.inr h'

theorem mem_replaceAll (pat repl s : List Char) (c : Char)
    (h : c ∈ replaceAll pat repl s) : c ∈ s ∨ c ∈ repl :=
  mem_replaceAllF pat repl _ s c h

/-! ## Angle-bracket accounting

Every placeholder marker used by this code base (`<MODULE_NAME>`,
`<MODULE>_`, `<CHARTNAME>`, `<MANIFEST_NAME>`) begins with `'<'`, and the
validator's character class excludes `'<'`; tracking occurrences of `'<'`
is therefore enough to show that no marker survives substitution. -/

/-- `noAngle s` holds when `s` contains no `'<'` character.  Written with a
bare `List.rec` so concrete evaluation stays cheap. -/
def noAngle (s : List Char) : Bool :=
  List.rec true (fun c _ ih => if c = '<' then false else ih) s

theorem noAngle_nil : noAngle [] = true := rfl

theorem noAngle_cons (c : Char) (cs : List Char) :
    noAngle (c :: cs) = if c = '<' then false else noAngle cs := rfl

theorem noAngle_iff (s : List Char) : noAngle s = true ↔ '<' ∉ s := by
  induction s with
  | nil => simp [noAngle_nil]
  | cons c cs ih =>
    rw [noAngle_cons]
    by_cases hc : c = '<'
    · subst hc; simp
    · simp only [hc, if_neg, not_false_iff, ih, List.mem_cons]
      constructor
      · intro h h'
        rcases h' with h' | h'
        · exact hc h'.symm
        · exact h h'
      · intro h h'; exact h (Or.inr h')

theorem noAngle_append (a b : List Char) :
    noAngle (a ++ b) = (noAngle a && noAngle b) := by
  induction a with
  | nil => simp [noAngle_nil]
  | cons c cs ih =>
    rw [List.cons_append, noAngle_cons, noAngle_cons]
    by_cases hc : c = '<' <;> simp [hc, ih]

/-- A `'<'`-free chunk passes through `replaceAll` unchanged (for a pattern
that starts with `'<'`). -/
theorem replaceAll_chunk_append (pt repl : List Char) (a t : List Char)
    (ha : noAngle a = true) :
    replaceAll ('<' :: pt) repl (a ++ t) = a ++ replaceAll ('<' :: pt) repl t := by
  induction a with
  | nil => simp
  | cons c cs ih =>
    rw [noAngle_cons] at ha
    by_cases hc : c = '<'
    · simp [hc] at ha
    · simp only [hc, if_neg, not_false_iff] at ha
      rw [List.cons_append, replaceAll_cons_skip pt repl c (cs ++ t) hc, ih ha,
        List.cons_append]

/-- A `'<'`-free string passes through `replaceAll` unchanged. -/
theorem replaceAll_of_noAngle (pt repl : List Char) (t : List Char)
    (ht : noAngle t = true) :
    replaceAll ('<' :: pt) repl t = t := by
  have := replaceAll_chunk_append pt repl t [] ht
  simpa [replaceAll_nil] using this

/-- Decomposition of a template body into `'<'`-free chunks separated by
occurrences of a placeholder `pat` (which starts with `'<'`). -/
inductive MarkerSeg (pat : List Char) : List Char → Prop
  | nil : MarkerSeg pat []
  | chunk (a t : List Char) : noAngle a = true → MarkerSeg pat t → MarkerSeg pat (a ++ t)
  | marker (t : List Char) : MarkerSeg pat t → MarkerSeg pat (pat ++ t)

theorem MarkerSeg.single (pat a : List Char) (h : noAngle a = true) :
    MarkerSeg pat a := by
  have := @MarkerSeg.chunk pat a [] h .nil
  simpa using this

/-- Substituting a `'<'`-free replacement into a marker-segmented string
yields a `'<'`-free result: no marker occurrence can survive or reappear. -/
theorem noAngle_replaceAll_of_markerSeg (pt repl : List Char) (s : List Char)
    (hs : MarkerSeg ('<' :: pt) s) (hrepl : noAngle repl = true) :
    noAngle (replaceAll ('<' :: pt) repl s) = true := by
  induction hs with
  | nil => simp [replaceAll_nil, noAngle_nil]
  | chunk a t ha _ iht =>
    rw [replaceAll_chunk_append pt repl a t ha, noAngle_append, ha, iht]
    rfl
  | marker t _ iht =>
    rw [replaceAll_pat_append ('<' :: pt) repl t (by simp), noAngle_append, hrepl, iht]
    rfl

theorem not_infix_of_noAngle (pt l : List Char) (h : noAngle l = true) :
    ¬ ('<' :: pt <:+: l) := by
  intro hinf
  exact ((noAngle_iff l).mp h) (hinf.subset (List.mem_cons_self '<' pt))

/-! ## No reintroduction of the pattern, for a replacement whose characters
are disjoint from the pattern (used for the clone path, where the
replacement is the fixed module name `"main"`). -/

theorem infix_append_right_of_disjoint (p a b : List Char)
    (hp : p ≠ []) (hd : ∀ c ∈ a, c ∉ p) (h : p <:+: a ++ b) : p <:+: b := by
  induction a with
  | nil => simpa using h
  | cons c cs ih =>
    rw [List.cons_append, List.infix_cons_iff] at h
    rcases h with h | h
    · cases p with
      | nil => exact absurd rfl hp
      | cons q qt =>
        rw [List.cons_prefix_cons] at h
        have : c ∈ q :: qt := h.1 ▸ List.mem_cons_self q qt
        exact absurd this (hd c (List.mem_cons_self c cs))
    · exact ih (fun x hx => hd x (List.mem_cons_of_mem c hx)) h

/-- If a prefix of the output of `replaceAllF` contains no character of the
(non-empty) replacement, it is already a prefix of the input. -/
theorem prefix_input_of_prefix_replaceAllF (pat repl : List Char)
    (hrepl : repl ≠ []) :
    ∀ f s q, (∀ c ∈ q, c ∉ repl) → q <+: replaceAllF pat repl f s → q <+: s := by
  intro f
  induction f with
  | zero => intro s q _ h; rwa [replaceAllF_zero] at h
  | succ f ih =>
    intro s q hq h
    cases s with
    | nil => rwa [replaceAllF_succ_nil] at h
    | cons a cs =>
      rw [replaceAllF_succ_cons] at h
      by_cases hp : pat.isPrefixOf (a :: cs) = true
      · simp only [hp, if_pos] at h
        cases q with
        | nil => exact List.nil_prefix
        | cons x xt =>
          cases repl with
          | nil => exact absurd rfl hrepl
          | cons r rt =>
            rw [List.cons_append, List.cons_prefix_cons] at h
            have : x ∈ r :: rt := h.1 ▸ List.mem_cons_self r rt
            exact absurd this (hq x (List.mem_cons_self x xt))
      · simp only [hp, Bool.false_eq_true, if_false] at h
        cases q with
        | nil => exact List.nil_prefix
        | cons x xt =>
          rw [List.cons_prefix_cons] at h
          have hxt := ih cs xt (fun c hc => hq c (List.mem_cons_of_mem x hc)) h.2
          rw [h.1]
          exact List.cons_prefix_cons.mpr ⟨rfl, hxt⟩

/-- After replacing every occurrence of `pat` by a non-empty replacement
whose characters do not occur in `pat`, the pattern no longer occurs. -/
theorem not_infix_replaceAllF (pat repl : List Char)
    (hpat : pat ≠ []) (hrepl : repl ≠ [])
    (hd : ∀ c ∈ repl, c ∉ pat) :
    ∀ f s, s.length ≤ f → ¬ (pat <:+: replaceAllF pat repl f s) := by
  intro f
  induction f with
  | zero =>
    intro s hf h
    cases s with
    | nil =>
      rw [replaceAllF_nil] at h
      rcases h with ⟨u, v, huv⟩
      cases pat with
      | nil => exact absurd rfl hpat
      | cons p pt => simp at huv
    | cons a cs => simp at hf
  | succ f ih =>
    intro s hf h
    cases s with
    | nil =>
      rw [replaceAllF_succ_nil] at h
      rcases h with ⟨u, v, huv⟩
      cases pat with
      | nil => exact absurd rfl hpat
      | cons p pt => simp at huv
    | cons a cs =>
      rw [replaceAllF_succ_cons] at h
      simp only [List.length_cons] at hf
      by_cases hp : pat.isPrefixOf (a :: cs) = true
      · simp only [hp, if_pos] at h
        have h' := infix_append_right_of_disjoint pat repl _ hpat hd h
        exact ih _ (by simp [List.length_drop]; omega) h'
      · simp only [hp, Bool.false_eq_true, if_false] at h
        rw [List.infix_cons_iff] at h
        rcases h with h | h
        · cases pat with
          | nil => exact absurd rfl hpat
          | cons p pt =>
            rw [List.cons_prefix_cons] at h
            have hdisj : ∀ c ∈ pt, c ∉ repl := by
              intro c hc hcr
              exact hd c hcr (List.mem_cons_of_mem p hc)
            have hpt := prefix_input_of_prefix_replaceAllF (p :: pt) repl hrepl f cs pt hdisj h.2
            have : (p :: pt).isPrefixOf (a :: cs) = true := by
              rw [List.isPrefixOf_iff_prefix]
              exact List.cons_prefix_cons.mpr ⟨h.1, hpt⟩
            exact absurd this (by simp [hp])
        · exact ih cs (by omega) h

theorem not_infix_replaceAll (pat repl s : List Char)
    (hpat : pat ≠ []) (hrepl : repl ≠ [])
    (hd : ∀ c ∈ repl, c ∉ pat) :
    ¬ (pat <:+: replaceAll pat repl s) := by
  rw [replaceAll, listLen_eq]
  exact not_infix_replaceAllF pat repl hpat hrepl hd _ s (by omega)

/-! ## Source constants (`pkg/chartutil/create.go`) -/

/-- Go `sep = string(filepath.Separator)`; the target platform is
Unix-like, so the separator is `/`. -/
def sep : String := "/"

/-- Go `moduleNameTemplate = "<MODULE>_"`, the placeholder used inside the
file-name constants below. -/
def moduleNameTemplate : String := "<MODULE>_"

/-- The placeholder literal `"<MODULE_NAME>"` that `transform` replaces
inside template bodies.  The Go source writes it inline (both in
`transform` and in each template constant); it is named once here so the
template constants below can factor their occurrences. -/
def moduleNameMarker : String := "<MODULE_NAME>"

/-- The module-name placeholder as a character list. -/
def markerL : List Char := moduleNameMarker.data

/-- Go `ChartfileName`. -/
def ChartfileName : String := "Chart.yaml"
/-- Go `ValuesfileName`. -/
def ValuesfileName : String := "values.yaml"
/-- Go `SchemafileName`. -/
def SchemafileName : String := "values.schema.json"
/-- Go `TemplatesDir`. -/
def TemplatesDir : String := "templates"
/-- Go `ChartsDir`. -/
def ChartsDir : String := "charts"
/-- Go `TemplatesTestsDir = TemplatesDir + sep + "tests"`. -/
def TemplatesTestsDir : String := TemplatesDir ++ sep ++ "tests"
/-- Go `IgnorefileName`. -/
def IgnorefileName : String := ".helmignore"
/-- Go `IngressFileName = TemplatesDir + sep + moduleNameTemplate + "_ingress.yaml"`. -/
def IngressFileName : String := TemplatesDir ++ sep ++ moduleNameTemplate ++ "_ingress.yaml"
/-- Go `DeploymentName = TemplatesDir + sep + moduleNameTemplate + "_deployment.yaml"`. -/
def DeploymentName : String := TemplatesDir ++ sep ++ moduleNameTemplate ++ "_deployment.yaml"
/-- Go `ServiceName = TemplatesDir + sep + moduleNameTemplate + "_service.yaml"`. -/
def ServiceName : String := TemplatesDir ++ sep ++ moduleNameTemplate ++ "_service.yaml"
/-- Go `ServiceAccountName = TemplatesDir + sep + moduleNameTemplate + "_serviceaccount.yaml"`. -/
def ServiceAccountName : String := TemplatesDir ++ sep ++ moduleNameTemplate ++ "_serviceaccount.yaml"
/-- Go `HorizontalPodAutoscalerName = TemplatesDir + sep + moduleNameTemplate + "_hpa.yaml"`. -/
def HorizontalPodAutoscalerName : String := TemplatesDir ++ sep ++ moduleNameTemplate ++ "_hpa.yaml"
/-- Go `NotesName = TemplatesDir + sep + "NOTES.txt"`. -/
def NotesName : String := TemplatesDir ++ sep ++ "NOTES.txt"
/-- Go `HelpersName = TemplatesDir + sep + "_" + moduleNameTemplate + "_helpers.tpl"`. -/
def HelpersName : String := TemplatesDir ++ sep ++ "_" ++ moduleNameTemplate ++ "_helpers.tpl"
/-- Go `TestConnectionName = TemplatesTestsDir + sep + moduleNameTemplate + "_test-connection.yaml"`. -/
def TestConnectionName : String := TemplatesTestsDir ++ sep ++ moduleNameTemplate ++ "_test-connection.yaml"

/-- Go `maxChartNameLength = 250`. -/
def maxChartNameLength : Nat := 250

/-- Body of the Go constant `defaultChartfile` in `pkg/chartutil/create.go`, verbatim. -/
def defaultChartfile : String :=
  "apiVersion: v2\nname: %s\ndescription: A Helm chart for Kubernetes\n\n# A chart can be either an \x27application\x27 or a \x27library\x27 chart.\n#\n# Application charts are a collection of templates that can be packaged into versioned archives\n# to be deployed.\n#\n# Library charts provide useful utilities or functions for the chart developer. They\x27re included as\n# a dependency of application charts to inject those utilities and functions into the rendering\n# pipeline. Library charts do not define any templates and therefore cannot be deployed.\ntype: application\n\n# This is the chart version. This version number should be incremented each time you make changes\n# to the chart and its templates, including the app version.\n# Versions are expected to follow Semantic Versioning (https://semver.org/)\nversion: 0.1.0\n\n# This is the version number of the application being deployed. This version number should be\n# incremented each time you make changes to the application. Versions are not expected to\n# follow Semantic Versioning. They should reflect the version the application is using.\n# It is recommended to use it with quotes.\nappVersion: \"1.16.0\"\n"

/-- Body of the Go constant `defaultIgnore` in `pkg/chartutil/create.go`, verbatim. -/
def defaultIgnore : String :=
  "# Patterns to ignore when building packages.\n# This supports shell glob matching, relative path matching, and\n# negation (prefixed with !). Only one pattern per line.\n.DS_Store\n# Common VCS dirs\n.git/\n.gitignore\n.bzr/\n.bzrignore\n.hg/\n.hgignore\n.svn/\n# Common backup files\n*.swp\n*.bak\n*.tmp\n*.orig\n*~\n# Various IDEs\n.project\n.idea/\n*.tmproj\n.vscode/\n"

/-- Body of the Go constant `defaultValues` in `pkg/chartutil/create.go`, verbatim; the occurrences of the placeholder are factored out through `moduleNameMarker` (concatenating the pieces yields exactly the Go raw-string literal). -/
def defaultValues : String :=
  "# Default values for %s.\n# This is a YAML-formatted file.\n# Declare variables to be passed into your templates.\n\n"
    ++ moduleNameMarker
    ++ ":\n  replicaCount: 1\n\n  image:\n    repository: nginx\n    pullPolicy: IfNotPresent\n    # Overrides the image tag whose default is the chart appVersion.\n    tag: \"\"\n\n  imagePullSecrets: []\n  nameOverride: \"\"\n  fullnameOverride: \"\"\n\n  serviceAccount:\n    # Specifies whether a service account should be created\n    create: true\n    # Annotations to add to the service account\n    annotations: \x7b\x7d\n    # The name of the service account to use.\n    # If not set and create is true, a name is generated using the fullname template\n    name: \"\"\n\n  podAnnotations: \x7b\x7d\n\n  podSecurityContext: \x7b\x7d\n    # fsGroup: 2000\n\n  securityContext: \x7b\x7d\n    # capabilities:\n    #   drop:\n    #   - ALL\n    # readOnlyRootFilesystem: true\n    # runAsNonRoot: true\n    # runAsUser: 1000\n\n  service:\n    type: ClusterIP\n    port: 80\n\n  ingress:\n    enabled: false\n    className: \"\"\n    annotations: \x7b\x7d\n      # kubernetes.io/ingress.class: nginx\n      # kubernetes.io/tls-acme: \"true\"\n    hosts:\n      - host: chart-example.local\n        paths:\n          - path: /\n            pathType: ImplementationSpecific\n    tls: []\n    #  - secretName: chart-example-tls\n    #    hosts:\n    #      - chart-example.local\n\n  resources: \x7b\x7d\n    # We usually recommend not to specify default resources and to leave this as a conscious\n    # choice for the user. This also increases chances charts run on environments with little\n    # resources, such as Minikube. If you do want to specify resources, uncomment the following\n    # lines, adjust them as necessary, and remove the curly braces after \x27resources:\x27.\n    # limits:\n    #   cpu: 100m\n    #   memory: 128Mi\n    # requests:\n    #   cpu: 100m\n    #   memory: 128Mi\n\n  autoscaling:\n    enabled: false\n    minReplicas: 1\n    maxReplicas: 100\n    targetCPUUtilizationPercentage: 80\n    # targetMemoryUtilizationPercentage: 80\n\n  nodeSelector: \x7b\x7d\n\n  tolerations: []\n\n  affinity: \x7b\x7d\n"

/-- Body of the Go constant `defaultIngress` in `pkg/chartutil/create.go`, verbatim; the occurrences of the placeholder are factored out through `moduleNameMarker` (concatenating the pieces yields exactly the Go raw-string literal). -/
def defaultIngress : String :=
  "\x7b\x7b- if .Values."
    ++ moduleNameMarker
    ++ ".ingress.enabled -\x7d\x7d\n\x7b\x7b- $fullName := include \""
    ++ moduleNameMarker
    ++ ".fullname\" . -\x7d\x7d\n\x7b\x7b- $svcPort := .Values."
    ++ moduleNameMarker
    ++ ".service.port -\x7d\x7d\n\x7b\x7b- if and .Values."
    ++ moduleNameMarker
    ++ ".ingress.className (not (semverCompare \">=1.18-0\" .Capabilities.KubeVersion.GitVersion)) \x7d\x7d\n  \x7b\x7b- if not (hasKey .Values."
    ++ moduleNameMarker
    ++ ".ingress.annotations \"kubernetes.io/ingress.class\") \x7d\x7d\n  \x7b\x7b- $_ := set .Values."
    ++ moduleNameMarker
    ++ ".ingress.annotations \"kubernetes.io/ingress.class\" .Values."
    ++ moduleNameMarker
    ++ ".ingress.className\x7d\x7d\n  \x7b\x7b- end \x7d\x7d\n\x7b\x7b- end \x7d\x7d\n\x7b\x7b- if semverCompare \">=1.19-0\" .Capabilities.KubeVersion.GitVersion -\x7d\x7d\napiVersion: networking.k8s.io/v1\n\x7b\x7b- else if semverCompare \">=1.14-0\" .Capabilities.KubeVersion.GitVersion -\x7d\x7d\napiVersion: networking.k8s.io/v1beta1\n\x7b\x7b- else -\x7d\x7d\napiVersion: extensions/v1beta1\n\x7b\x7b- end \x7d\x7d\nkind: Ingress\nmetadata:\n  name: \x7b\x7b $fullName \x7d\x7d\n  labels:\n    \x7b\x7b- include \""
    ++ moduleNameMarker
    ++ ".labels\" . | nindent 4 \x7d\x7d\n  \x7b\x7b- with .Values."
    ++ moduleNameMarker
    ++ ".ingress.annotations \x7d\x7d\n  annotations:\n    \x7b\x7b- toYaml . | nindent 4 \x7d\x7d\n  \x7b\x7b- end \x7d\x7d\nspec:\n  \x7b\x7b- if and .Values."
    ++ moduleNameMarker
    ++ ".ingress.className (semverCompare \">=1.18-0\" .Capabilities.KubeVersion.GitVersion) \x7d\x7d\n  ingressClassName: \x7b\x7b .Values."
    ++ moduleNameMarker
    ++ ".ingress.className \x7d\x7d\n  \x7b\x7b- end \x7d\x7d\n  \x7b\x7b- if .Values."
    ++ moduleNameMarker
    ++ ".ingress.tls \x7d\x7d\n  tls:\n    \x7b\x7b- range .Values."
    ++ moduleNameMarker
    ++ ".ingress.tls \x7d\x7d\n    - hosts:\n        \x7b\x7b- range .hosts \x7d\x7d\n        - \x7b\x7b . | quote \x7d\x7d\n        \x7b\x7b- end \x7d\x7d\n      secretName: \x7b\x7b .secretName \x7d\x7d\n    \x7b\x7b- end \x7d\x7d\n  \x7b\x7b- end \x7d\x7d\n  rules:\n    \x7b\x7b- range .Values."
    ++ moduleNameMarker
    ++ ".ingress.hosts \x7d\x7d\n    - host: \x7b\x7b .host | quote \x7d\x7d\n      http:\n        paths:\n          \x7b\x7b- range .paths \x7d\x7d\n          - path: \x7b\x7b .path \x7d\x7d\n            \x7b\x7b- if and .pathType (semverCompare \">=1.18-0\" $.Capabilities.KubeVersion.GitVersion) \x7d\x7d\n            pathType: \x7b\x7b .pathType \x7d\x7d\n            \x7b\x7b- end \x7d\x7d\n            backend:\n              \x7b\x7b- if semverCompare \">=1.19-0\" $.Capabilities.KubeVersion.GitVersion \x7d\x7d\n              service:\n                name: \x7b\x7b $fullName \x7d\x7d\n                port:\n                  number: \x7b\x7b $svcPort \x7d\x7d\n              \x7b\x7b- else \x7d\x7d\n              serviceName: \x7b\x7b $fullName \x7d\x7d\n              servicePort: \x7b\x7b $svcPort \x7d\x7d\n              \x7b\x7b- end \x7d\x7d\n          \x7b\x7b- end \x7d\x7d\n    \x7b\x7b- end \x7d\x7d\n\x7b\x7b- end \x7d\x7d\n"

/-- Body of the Go constant `defaultDeployment` in `pkg/chartutil/create.go`, verbatim; the occurrences of the placeholder are factored out through `moduleNameMarker` (concatenating the pieces yields exactly the Go raw-string literal). -/
def defaultDeployment : String :=
  "apiVersion: apps/v1\nkind: Deployment\nmetadata:\n  name: \x7b\x7b include \""
    ++ moduleNameMarker
    ++ ".fullname\" . \x7d\x7d\n  labels:\n    \x7b\x7b- include \""
    ++ moduleNameMarker
    ++ ".labels\" . | nindent 4 \x7d\x7d\nspec:\n  \x7b\x7b- if not .Values."
    ++ moduleNameMarker
    ++ ".autoscaling.enabled \x7d\x7d\n  replicas: \x7b\x7b .Values."
    ++ moduleNameMarker
    ++ ".replicaCount \x7d\x7d\n  \x7b\x7b- end \x7d\x7d\n  selector:\n    matchLabels:\n      app.kubernetes.io/name: \x7b\x7b include \""
    ++ moduleNameMarker
    ++ ".name\" . \x7d\x7d\n      app.kubernetes.io/instance: \x7b\x7b .Release.Name \x7d\x7d\n  template:\n    metadata:\n      \x7b\x7b- with .Values."
    ++ moduleNameMarker
    ++ ".podAnnotations \x7d\x7d\n      annotations:\n        \x7b\x7b- toYaml . | nindent 8 \x7d\x7d\n      \x7b\x7b- end \x7d\x7d\n      labels:\n        app.kubernetes.io/name: \x7b\x7b include \""
    ++ moduleNameMarker
    ++ ".name\" . \x7d\x7d\n        app.kubernetes.io/instance: \x7b\x7b .Release.Name \x7d\x7d\n    spec:\n      \x7b\x7b- with .Values."
    ++ moduleNameMarker
    ++ ".imagePullSecrets \x7d\x7d\n      imagePullSecrets:\n        \x7b\x7b- toYaml . | nindent 8 \x7d\x7d\n      \x7b\x7b- end \x7d\x7d\n      serviceAccountName: \x7b\x7b include \""
    ++ moduleNameMarker
    ++ ".serviceAccountName\" . \x7d\x7d\n      securityContext:\n        \x7b\x7b- toYaml .Values."
    ++ moduleNameMarker
    ++ ".podSecurityContext | nindent 8 \x7d\x7d\n      containers:\n        - name: \x7b\x7b .Chart.Name \x7d\x7d\n          securityContext:\n            \x7b\x7b- toYaml .Values."
    ++ moduleNameMarker
    ++ ".securityContext | nindent 12 \x7d\x7d\n          image: \"\x7b\x7b .Values."
    ++ moduleNameMarker
    ++ ".image.repository \x7d\x7d:\x7b\x7b .Values."
    ++ moduleNameMarker
    ++ ".image.tag | default .Chart.AppVersion \x7d\x7d\"\n          imagePullPolicy: \x7b\x7b .Values."
    ++ moduleNameMarker
    ++ ".image.pullPolicy \x7d\x7d\n          ports:\n            - name: http\n              containerPort: 80\n              protocol: TCP\n          livenessProbe:\n            httpGet:\n              path: /\n              port: http\n          readinessProbe:\n            httpGet:\n              path: /\n              port: http\n          resources:\n            \x7b\x7b- toYaml .Values."
    ++ moduleNameMarker
    ++ ".resources | nindent 12 \x7d\x7d\n      \x7b\x7b- with .Values."
    ++ moduleNameMarker
    ++ ".nodeSelector \x7d\x7d\n      nodeSelector:\n        \x7b\x7b- toYaml . | nindent 8 \x7d\x7d\n      \x7b\x7b- end \x7d\x7d\n      \x7b\x7b- with .Values."
    ++ moduleNameMarker
    ++ ".affinity \x7d\x7d\n      affinity:\n        \x7b\x7b- toYaml . | nindent 8 \x7d\x7d\n      \x7b\x7b- end \x7d\x7d\n      \x7b\x7b- with .Values."
    ++ moduleNameMarker
    ++ ".tolerations \x7d\x7d\n      tolerations:\n        \x7b\x7b- toYaml . | nindent 8 \x7d\x7d\n      \x7b\x7b- end \x7d\x7d\n"

/-- Body of the Go constant `defaultService` in `pkg/chartutil/create.go`, verbatim; the occurrences of the placeholder are factored out through `moduleNameMarker` (concatenating the pieces yields exactly the Go raw-string literal). -/
def defaultService : String :=
  "apiVersion: v1\nkind: Service\nmetadata:\n  name: \x7b\x7b include \""
    ++ moduleNameMarker
    ++ ".fullname\" . \x7d\x7d\n  labels:\n    \x7b\x7b- include \""
    ++ moduleNameMarker
    ++ ".labels\" . | nindent 4 \x7d\x7d\nspec:\n  type: \x7b\x7b .Values."
    ++ moduleNameMarker
    ++ ".service.type \x7d\x7d\n  ports:\n    - port: \x7b\x7b .Values."
    ++ moduleNameMarker
    ++ ".service.port \x7d\x7d\n      targetPort: http\n      protocol: TCP\n      name: http\n  selector:\n    app.kubernetes.io/name: \x7b\x7b include \""
    ++ moduleNameMarker
    ++ ".name\" . \x7d\x7d\n    app.kubernetes.io/instance: \x7b\x7b .Release.Name \x7d\x7d\n"

/-- Body of the Go constant `defaultServiceAccount` in `pkg/chartutil/create.go`, verbatim; the occurrences of the placeholder are factored out through `moduleNameMarker` (concatenating the pieces yields exactly the Go raw-string literal). -/
def defaultServiceAccount : String :=
  "\x7b\x7b- if .Values."
    ++ moduleNameMarker
    ++ ".serviceAccount.create -\x7d\x7d\napiVersion: v1\nkind: ServiceAccount\nmetadata:\n  name: \x7b\x7b include \""
    ++ moduleNameMarker
    ++ ".serviceAccountName\" . \x7d\x7d\n  labels:\n    \x7b\x7b- include \""
    ++ moduleNameMarker
    ++ ".labels\" . | nindent 4 \x7d\x7d\n  \x7b\x7b- with .Values."
    ++ moduleNameMarker
    ++ ".serviceAccount.annotations \x7d\x7d\n  annotations:\n    \x7b\x7b- toYaml . | nindent 4 \x7d\x7d\n  \x7b\x7b- end \x7d\x7d\n\x7b\x7b- end \x7d\x7d\n"

/-- Body of the Go constant `defaultHorizontalPodAutoscaler` in `pkg/chartutil/create.go`, verbatim; the occurrences of the placeholder are factored out through `moduleNameMarker` (concatenating the pieces yields exactly the Go raw-string literal). -/
def defaultHorizontalPodAutoscaler : String :=
  "\x7b\x7b- if .Values."
    ++ moduleNameMarker
    ++ ".autoscaling.enabled \x7d\x7d\napiVersion: autoscaling/v2beta1\nkind: HorizontalPodAutoscaler\nmetadata:\n  name: \x7b\x7b include \""
    ++ moduleNameMarker
    ++ ".fullname\" . \x7d\x7d\n  labels:\n    \x7b\x7b- include \""
    ++ moduleNameMarker
    ++ ".labels\" . | nindent 4 \x7d\x7d\nspec:\n  scaleTargetRef:\n    apiVersion: apps/v1\n    kind: Deployment\n    name: \x7b\x7b include \""
    ++ moduleNameMarker
    ++ ".fullname\" . \x7d\x7d\n  minReplicas: \x7b\x7b .Values."
    ++ moduleNameMarker
    ++ ".autoscaling.minReplicas \x7d\x7d\n  maxReplicas: \x7b\x7b .Values."
    ++ moduleNameMarker
    ++ ".autoscaling.maxReplicas \x7d\x7d\n  metrics:\n    \x7b\x7b- if .Values."
    ++ moduleNameMarker
    ++ ".autoscaling.targetCPUUtilizationPercentage \x7d\x7d\n    - type: Resource\n      resource:\n        name: cpu\n        targetAverageUtilization: \x7b\x7b .Values."
    ++ moduleNameMarker
    ++ ".autoscaling.targetCPUUtilizationPercentage \x7d\x7d\n    \x7b\x7b- end \x7d\x7d\n    \x7b\x7b- if .Values."
    ++ moduleNameMarker
    ++ ".autoscaling.targetMemoryUtilizationPercentage \x7d\x7d\n    - type: Resource\n      resource:\n        name: memory\n        targetAverageUtilization: \x7b\x7b .Values."
    ++ moduleNameMarker
    ++ ".autoscaling.targetMemoryUtilizationPercentage \x7d\x7d\n    \x7b\x7b- end \x7d\x7d\n\x7b\x7b- end \x7d\x7d\n"

/-- Body of the Go constant `defaultNotes` in `pkg/chartutil/create.go`, verbatim; the occurrences of the placeholder are factored out through `moduleNameMarker` (concatenating the pieces yields exactly the Go raw-string literal). -/
def defaultNotes : String :=
  "1. Get the application URL by running these commands:\n\x7b\x7b- if .Values."
    ++ moduleNameMarker
    ++ ".ingress.enabled \x7d\x7d\n\x7b\x7b- range $host := .Values."
    ++ moduleNameMarker
    ++ ".ingress.hosts \x7d\x7d\n  \x7b\x7b- range .paths \x7d\x7d\n  http\x7b\x7b if $.Values."
    ++ moduleNameMarker
    ++ ".ingress.tls \x7d\x7ds\x7b\x7b end \x7d\x7d://\x7b\x7b $host.host \x7d\x7d\x7b\x7b .path \x7d\x7d\n  \x7b\x7b- end \x7d\x7d\n\x7b\x7b- end \x7d\x7d\n\x7b\x7b- else if contains \"NodePort\" .Values."
    ++ moduleNameMarker
    ++ ".service.type \x7d\x7d\n  export NODE_PORT=$(kubectl get --namespace \x7b\x7b .Release.Namespace \x7d\x7d -o jsonpath=\"\x7b.spec.ports[0].nodePort\x7d\" services \x7b\x7b include \""
    ++ moduleNameMarker
    ++ ".fullname\" . \x7d\x7d)\n  export NODE_IP=$(kubectl get nodes --namespace \x7b\x7b .Release.Namespace \x7d\x7d -o jsonpath=\"\x7b.items[0].status.addresses[0].address\x7d\")\n  echo http://$NODE_IP:$NODE_PORT\n\x7b\x7b- else if contains \"LoadBalancer\" .Values."
    ++ moduleNameMarker
    ++ ".service.type \x7d\x7d\n     NOTE: It may take a few minutes for the LoadBalancer IP to be available.\n           You can watch the status of by running \x27kubectl get --namespace \x7b\x7b .Release.Namespace \x7d\x7d svc -w \x7b\x7b include \""
    ++ moduleNameMarker
    ++ ".fullname\" . \x7d\x7d\x27\n  export SERVICE_IP=$(kubectl get svc --namespace \x7b\x7b .Release.Namespace \x7d\x7d \x7b\x7b include \""
    ++ moduleNameMarker
    ++ ".fullname\" . \x7d\x7d --template \"\x7b\x7b\"\x7b\x7b range (index .status.loadBalancer.ingress 0) \x7d\x7d\x7b\x7b.\x7d\x7d\x7b\x7b end \x7d\x7d\"\x7d\x7d\")\n  echo http://$SERVICE_IP:\x7b\x7b .Values."
    ++ moduleNameMarker
    ++ ".service.port \x7d\x7d\n\x7b\x7b- else if contains \"ClusterIP\" .Values."
    ++ moduleNameMarker
    ++ ".service.type \x7d\x7d\n  export POD_NAME=$(kubectl get pods --namespace \x7b\x7b .Release.Namespace \x7d\x7d -l \"app.kubernetes.io/name=\x7b\x7b include \""
    ++ moduleNameMarker
    ++ ".name\" . \x7d\x7d,app.kubernetes.io/instance=\x7b\x7b .Release.Name \x7d\x7d\" -o jsonpath=\"\x7b.items[0].metadata.name\x7d\")\n  export CONTAINER_PORT=$(kubectl get pod --namespace \x7b\x7b .Release.Namespace \x7d\x7d $POD_NAME -o jsonpath=\"\x7b.spec.containers[0].ports[0].containerPort\x7d\")\n  echo \"Visit http://127.0.0.1:8080 to use your application\"\n  kubectl --namespace \x7b\x7b .Release.Namespace \x7d\x7d port-forward $POD_NAME 8080:$CONTAINER_PORT\n\x7b\x7b- end \x7d\x7d\n"

/-- Body of the Go constant `defaultHelpers` in `pkg/chartutil/create.go`, verbatim; the occurrences of the placeholder are factored out through `moduleNameMarker` (concatenating the pieces yields exactly the Go raw-string literal). -/
def defaultHelpers : String :=
  "\x7b\x7b/*\nExpand the name of the chart.\n*/\x7d\x7d\n\x7b\x7b- define \""
    ++ moduleNameMarker
    ++ ".name\" -\x7d\x7d\n\x7b\x7b- default .Chart.Name .Values."
    ++ moduleNameMarker
    ++ ".nameOverride | trunc 63 | trimSuffix \"-\" \x7d\x7d\n\x7b\x7b- end \x7d\x7d\n\n\x7b\x7b/*\nCreate a default fully qualified app name.\nWe truncate at 63 chars because some Kubernetes name fields are limited to this (by the DNS naming spec).\nIf release name contains chart name it will be used as a full name.\n*/\x7d\x7d\n\x7b\x7b- define \""
    ++ moduleNameMarker
    ++ ".fullname\" -\x7d\x7d\n\x7b\x7b- if .Values."
    ++ moduleNameMarker
    ++ ".fullnameOverride \x7d\x7d\n\x7b\x7b- .Values."
    ++ moduleNameMarker
    ++ ".fullnameOverride | trunc 63 | trimSuffix \"-\" \x7d\x7d\n\x7b\x7b- else \x7d\x7d\n\x7b\x7b- $name := default .Chart.Name .Values."
    ++ moduleNameMarker
    ++ ".nameOverride \x7d\x7d\n\x7b\x7b- if contains $name .Release.Name \x7d\x7d\n\x7b\x7b- .Release.Name | trunc 63 | trimSuffix \"-\" \x7d\x7d\n\x7b\x7b- else \x7d\x7d\n\x7b\x7b- printf \"%s-%s-%s\" .Release.Name $name \""
    ++ moduleNameMarker
    ++ "\" | trunc 63 | trimSuffix \"-\" \x7d\x7d\n\x7b\x7b- end \x7d\x7d\n\x7b\x7b- end \x7d\x7d\n\x7b\x7b- end \x7d\x7d\n\n\x7b\x7b/*\nCreate chart name and version as used by the chart label.\n*/\x7d\x7d\n\x7b\x7b- define \""
    ++ moduleNameMarker
    ++ ".chart\" -\x7d\x7d\n\x7b\x7b- printf \"%s-%s\" .Chart.Name .Chart.Version | replace \"+\" \"_\" | trunc 63 | trimSuffix \"-\" \x7d\x7d\n\x7b\x7b- end \x7d\x7d\n\n\x7b\x7b/*\nCommon labels\n*/\x7d\x7d\n\x7b\x7b- define \""
    ++ moduleNameMarker
    ++ ".labels\" -\x7d\x7d\nhelm.sh/chart: \x7b\x7b include \""
    ++ moduleNameMarker
    ++ ".chart\" . \x7d\x7d\n\x7b\x7b include \""
    ++ moduleNameMarker
    ++ ".selectorLabels\" . \x7d\x7d\n\x7b\x7b- if .Chart.AppVersion \x7d\x7d\napp.kubernetes.io/version: \x7b\x7b .Chart.AppVersion | quote \x7d\x7d\n\x7b\x7b- end \x7d\x7d\napp.kubernetes.io/managed-by: \x7b\x7b .Release.Service \x7d\x7d\n\x7b\x7b- end \x7d\x7d\n\n\x7b\x7b/*\nSelector labels\n*/\x7d\x7d\n\x7b\x7b- define \""
    ++ moduleNameMarker
    ++ ".selectorLabels\" -\x7d\x7d\napp.kubernetes.io/name: \x7b\x7b include \""
    ++ moduleNameMarker
    ++ ".name\" . \x7d\x7d-"
    ++ moduleNameMarker
    ++ "\napp.kubernetes.io/instance: \x7b\x7b .Release.Name \x7d\x7d\n\x7b\x7b- end \x7d\x7d\n\n\x7b\x7b/*\nCreate the name of the service account to use\n*/\x7d\x7d\n\x7b\x7b- define \""
    ++ moduleNameMarker
    ++ ".serviceAccountName\" -\x7d\x7d\n\x7b\x7b- if .Values."
    ++ moduleNameMarker
    ++ ".serviceAccount.create \x7d\x7d\n\x7b\x7b- default (include \""
    ++ moduleNameMarker
    ++ ".fullname\" .) .Values."
    ++ moduleNameMarker
    ++ ".serviceAccount.name \x7d\x7d\n\x7b\x7b- else \x7d\x7d\n\x7b\x7b- default \"default\" .Values."
    ++ moduleNameMarker
    ++ ".serviceAccount.name \x7d\x7d\n\x7b\x7b- end \x7d\x7d\n\x7b\x7b- end \x7d\x7d\n"

/-- Body of the Go constant `defaultTestConnection` in `pkg/chartutil/create.go`, verbatim; the occurrences of the placeholder are factored out through `moduleNameMarker` (concatenating the pieces yields exactly the Go raw-string literal). -/
def defaultTestConnection : String :=
  "apiVersion: v1\nkind: Pod\nmetadata:\n  name: \"\x7b\x7b include \""
    ++ moduleNameMarker
    ++ ".fullname\" . \x7d\x7d-test-connection\"\n  labels:\n    \x7b\x7b- include \""
    ++ moduleNameMarker
    ++ ".labels\" . | nindent 4 \x7d\x7d\n  annotations:\n    \"helm.sh/hook\": test\nspec:\n  containers:\n    - name: wget\n      image: busybox\n      command: [\x27wget\x27]\n      args: [\x27\x7b\x7b include \""
    ++ moduleNameMarker
    ++ ".fullname\" . \x7d\x7d:\x7b\x7b .Values."
    ++ moduleNameMarker
    ++ ".service.port \x7d\x7d\x27]\n  restartPolicy: Never\n"

/-- Body of the Go constant `ingressValues` in the manifest-generator file, verbatim. -/
def ingressValues : String :=
  "\n<MANIFEST_NAME>_ingress:\n  enabled: false\n  className: \"\"\n  annotations: \x7b\x7d\n    # kubernetes.io/ingress.class: nginx\n    # kubernetes.io/tls-acme: \"true\"\n  hosts:\n    - host: chart-example.local\n      paths:\n        - path: /\n          pathType: ImplementationSpecific\n  tls: []\n  #  - secretName: chart-example-tls\n  #    hosts:\n  #      - chart-example.local\n"

/-- Body of the Go constant `ingress` in the manifest-generator file, verbatim. -/
def ingress : String :=
  "\x7b\x7b- if .Values.<MANIFEST_NAME>_ingress.enabled -\x7d\x7d\n\x7b\x7b- $fullName := include \"<CHARTNAME>.fullname\" . -\x7d\x7d\n\x7b\x7b- $svcPort := .Values.<MANIFEST_NAME>_service.port -\x7d\x7d\n\x7b\x7b- if and .Values.<MANIFEST_NAME>_ingress.className (not (semverCompare \">=1.18-0\" .Capabilities.KubeVersion.GitVersion)) \x7d\x7d\n  \x7b\x7b- if not (hasKey .Values.<MANIFEST_NAME>_ingress.annotations \"kubernetes.io/ingress.class\") \x7d\x7d\n  \x7b\x7b- $_ := set .Values.<MANIFEST_NAME>_ingress.annotations \"kubernetes.io/ingress.class\" .Values.<MANIFEST_NAME>_ingress.className\x7d\x7d\n  \x7b\x7b- end \x7d\x7d\n\x7b\x7b- end \x7d\x7d\n\x7b\x7b- if semverCompare \">=1.19-0\" .Capabilities.KubeVersion.GitVersion -\x7d\x7d\napiVersion: networking.k8s.io/v1\n\x7b\x7b- else if semverCompare \">=1.14-0\" .Capabilities.KubeVersion.GitVersion -\x7d\x7d\napiVersion: networking.k8s.io/v1beta1\n\x7b\x7b- else -\x7d\x7d\napiVersion: extensions/v1beta1\n\x7b\x7b- end \x7d\x7d\nkind: Ingress\nmetadata:\n  name: \x7b\x7b $fullName \x7d\x7d\n  labels:\n    \x7b\x7b- include \"<CHARTNAME>.labels\" . | nindent 4 \x7d\x7d\n  \x7b\x7b- with .Values.<MANIFEST_NAME>_ingress.annotations \x7d\x7d\n  annotations:\n    \x7b\x7b- toYaml . | nindent 4 \x7d\x7d\n  \x7b\x7b- end \x7d\x7d\nspec:\n  \x7b\x7b- if and .Values.<MANIFEST_NAME>_ingress.className (semverCompare \">=1.18-0\" .Capabilities.KubeVersion.GitVersion) \x7d\x7d\n  ingressClassName: \x7b\x7b .Values.<MANIFEST_NAME>_ingress.className \x7d\x7d\n  \x7b\x7b- end \x7d\x7d\n  \x7b\x7b- if .Values.<MANIFEST_NAME>_ingress.tls \x7d\x7d\n  tls:\n    \x7b\x7b- range .Values.<MANIFEST_NAME>_ingress.tls \x7d\x7d\n    - hosts:\n        \x7b\x7b- range .hosts \x7d\x7d\n        - \x7b\x7b . | quote \x7d\x7d\n        \x7b\x7b- end \x7d\x7d\n      secretName: \x7b\x7b .secretName \x7d\x7d\n    \x7b\x7b- end \x7d\x7d\n  \x7b\x7b- end \x7d\x7d\n  rules:\n    \x7b\x7b- range .Values.<MANIFEST_NAME>_ingress.hosts \x7d\x7d\n    - host: \x7b\x7b .host | quote \x7d\x7d\n      http:\n        paths:\n          \x7b\x7b- range .paths \x7d\x7d\n          - path: \x7b\x7b .path \x7d\x7d\n            \x7b\x7b- if and .pathType (semverCompare \">=1.18-0\" $.Capabilities.KubeVersion.GitVersion) \x7d\x7d\n            pathType: \x7b\x7b .pathType \x7d\x7d\n            \x7b\x7b- end \x7d\x7d\n            backend:\n              \x7b\x7b- if semverCompare \">=1.19-0\" $.Capabilities.KubeVersion.GitVersion \x7d\x7d\n              service:\n                name: \x7b\x7b $fullName \x7d\x7d-<MANIFEST_NAME>\n                port:\n                  number: \x7b\x7b $svcPort \x7d\x7d\n              \x7b\x7b- else \x7d\x7d\n              serviceName: \x7b\x7b $fullName \x7d\x7d-<MANIFEST_NAME>\n              servicePort: \x7b\x7b $svcPort \x7d\x7d\n              \x7b\x7b- end \x7d\x7d\n          \x7b\x7b- end \x7d\x7d\n    \x7b\x7b- end \x7d\x7d\n\x7b\x7b- end \x7d\x7d\n"

/-- Body of the Go constant `serviceValues` in the manifest-generator file, verbatim. -/
def serviceValues : String :=
  "\n<MANIFEST_NAME>_service:\n  type: ClusterIP\n  port: 80\n"

/-- Body of the Go constant `service` in the manifest-generator file, verbatim. -/
def service : String :=
  "apiVersion: v1\nkind: Service\nmetadata:\n  name: \x7b\x7b include \"<CHARTNAME>.fullname\" . \x7d\x7d-<MANIFEST_NAME>\n  labels:\n    \x7b\x7b- include \"<CHARTNAME>.labels\" . | nindent 4 \x7d\x7d\nspec:\n  type: \x7b\x7b .Values.service.type \x7d\x7d\n  ports:\n    - port: \x7b\x7b .Values.service.port \x7d\x7d\n      targetPort: http\n      protocol: TCP\n      name: http\n  selector:\n    app.kubernetes.io/name: \x7b\x7b include \"<CHARTNAME>.name\" . \x7d\x7d-<MANIFEST_NAME>\n    app.kubernetes.io/instance: \x7b\x7b .Release.Name \x7d\x7d\n"

/-- Body of the Go constant `deploymentValues` in the manifest-generator file, verbatim. -/
def deploymentValues : String :=
  "\n<MANIFEST_NAME>_deployment:\n  replicaCount: 1\n\n  image:\n    repository: nginx\n    pullPolicy: IfNotPresent\n    # Overrides the image tag whose default is the chart appVersion.\n    tag: \"\"\n\n  imagePullSecrets: []\n  nameOverride: \"\"\n  fullnameOverride: \"\"\n\n  serviceAccount:\n    # Specifies whether a service account should be created\n    create: true\n    # Annotations to add to the service account\n    annotations: \x7b\x7d\n    # The name of the service account to use.\n    # If not set and create is true, a name is generated using the fullname template\n    name: \"\"\n\n  podAnnotations: \x7b\x7d\n\n  podSecurityContext: \x7b\x7d\n    # fsGroup: 2000\n\n  securityContext: \x7b\x7d\n    # capabilities:\n    #   drop:\n    #   - ALL\n    # readOnlyRootFilesystem: true\n    # runAsNonRoot: true\n    # runAsUser: 1000\n  resources: \x7b\x7d\n    # We usually recommend not to specify default resources and to leave this as a conscious\n    # choice for the user. This also increases chances charts run on environments with little\n    # resources, such as Minikube. If you do want to specify resources, uncomment the following\n    # lines, adjust them as necessary, and remove the curly braces after \x27resources:\x27.\n    # limits:\n    #   cpu: 100m\n    #   memory: 128Mi\n    # requests:\n    #   cpu: 100m\n    #   memory: 128Mi\n\n  nodeSelector: \x7b\x7d\n\n  tolerations: []\n\n  affinity: \x7b\x7d\n"

/-- Body of the Go constant `deployment` in the manifest-generator file, verbatim. -/
def deployment : String :=
  "apiVersion: apps/v1\nkind: Deployment\nmetadata:\n  name: \x7b\x7b include \"<CHARTNAME>.fullname\" . \x7d\x7d-<MANIFEST_NAME>\n  labels:\n    \x7b\x7b- include \"<CHARTNAME>.labels\" . | nindent 4 \x7d\x7d\nspec:\n  \x7b\x7b- if not .Values.<MANIFEST_NAME>_deployment.autoscaling.enabled \x7d\x7d\n  replicas: \x7b\x7b .Values.<MANIFEST_NAME>_deployment.replicaCount \x7d\x7d\n  \x7b\x7b- end \x7d\x7d\n  selector:\n    matchLabels:\n      app.kubernetes.io/name: \x7b\x7b include \"<CHARTNAME>.name\" . \x7d\x7d-<MANIFEST_NAME>\n      app.kubernetes.io/instance: \x7b\x7b .Release.Name \x7d\x7d\n  template:\n    metadata:\n      \x7b\x7b- with .Values.<MANIFEST_NAME>_deployment.podAnnotations \x7d\x7d\n      annotations:\n        \x7b\x7b- toYaml . | nindent 8 \x7d\x7d\n      \x7b\x7b- end \x7d\x7d\n      labels:\n        app.kubernetes.io/name: \x7b\x7b include \"<CHARTNAME>.name\" . \x7d\x7d-<MANIFEST_NAME>\n        app.kubernetes.io/instance: \x7b\x7b .Release.Name \x7d\x7d\n    spec:\n      \x7b\x7b- with .Values.<MANIFEST_NAME>_deployment.imagePullSecrets \x7d\x7d\n      imagePullSecrets:\n        \x7b\x7b- toYaml . | nindent 8 \x7d\x7d\n      \x7b\x7b- end \x7d\x7d\n      serviceAccountName: \x7b\x7b include \"<CHARTNAME>.serviceAccountName\" . \x7d\x7d\n      securityContext:\n        \x7b\x7b- toYaml .Values.<MANIFEST_NAME>_deployment.podSecurityContext | nindent 8 \x7d\x7d\n      containers:\n        - name: \x7b\x7b .Chart.Name \x7d\x7d\n          securityContext:\n            \x7b\x7b- toYaml .Values.<MANIFEST_NAME>_deployment.securityContext | nindent 12 \x7d\x7d\n          image: \"\x7b\x7b .Values.<MANIFEST_NAME>_deployment.image.repository \x7d\x7d:\x7b\x7b .Values.<MANIFEST_NAME>_deployment.image.tag | default .Chart.AppVersion \x7d\x7d\"\n          imagePullPolicy: \x7b\x7b .Values.<MANIFEST_NAME>_deployment.image.pullPolicy \x7d\x7d\n          ports:\n            - name: http\n              containerPort: 80\n              protocol: TCP\n          livenessProbe:\n            httpGet:\n              path: /\n              port: http\n          readinessProbe:\n            httpGet:\n              path: /\n              port: http\n          resources:\n            \x7b\x7b- toYaml .Values.<MANIFEST_NAME>_deployment.resources | nindent 12 \x7d\x7d\n      \x7b\x7b- with .Values.<MANIFEST_NAME>_deployment.nodeSelector \x7d\x7d\n      nodeSelector:\n        \x7b\x7b- toYaml . | nindent 8 \x7d\x7d\n      \x7b\x7b- end \x7d\x7d\n      \x7b\x7b- with .Values.<MANIFEST_NAME>_deployment.affinity \x7d\x7d\n      affinity:\n        \x7b\x7b- toYaml . | nindent 8 \x7d\x7d\n      \x7b\x7b- end \x7d\x7d\n      \x7b\x7b- with .Values.<MANIFEST_NAME>_deployment.tolerations \x7d\x7d\n      tolerations:\n        \x7b\x7b- toYaml . | nindent 8 \x7d\x7d\n      \x7b\x7b- end \x7d\x7d\n"


/-! ## Placeholder substitution and name validation -/

/-- Go `transform(src, module string) []byte`:
`[]byte(strings.ReplaceAll(src, "<MODULE_NAME>", module))`. -/
def transform (src module : String) : String :=
  ⟨replaceAll markerL module.data src.data⟩

/-- Go `transformModuleName(src, moduleName string) string`:
`strings.ReplaceAll(src, moduleNameTemplate, moduleName+"_")`. -/
def transformModuleName (src moduleName : String) : String :=
  ⟨replaceAll moduleNameTemplate.data (moduleName ++ "_").data src.data⟩

/-- Model of `fmt.Sprintf(format, arg)` for a format string whose only verb
is a single `%s` (the only use in this file, for `defaultChartfile`):
the `%s` is replaced by `arg`. -/
def sprintfS (format arg : String) : String :=
  ⟨replaceAll "%s".data arg.data format.data⟩

/-- The character class of the Go regexp `chartName = ^[a-zA-Z0-9._-]+$`. -/
def isNameChar (c : Char) : Bool :=
  c.isLower || c.isUpper || c.isDigit || c == '.' || c == '_' || c == '-'

/-- Model of `chartName.MatchString(name)`: the whole string is a non-empty
run of characters from the class. -/
def chartNameMatchString (name : String) : Bool :=
  !name.data.isEmpty && name.data.all isNameChar

/-- The two error cases of `validateChartName` (the Go code returns
distinct `fmt.Errorf` messages). -/
inductive NameError
  /-- "chart name must be between 1 and 250 characters" -/
  | emptyOrTooLong
  /-- "chart name must match the regular expression ..." -/
  | invalidChars
deriving DecidableEq

/-- Go `validateChartName(name string) error`.  `len(name)` is byte length
in Go; all names considered here are ASCII, where byte and rune counts
agree. -/
def validateChartName (name : String) : Except NameError Unit :=
  if name = "" ∨ name.length > maxChartNameLength then .error .emptyOrTooLong
  else if !(chartNameMatchString name) then .error .invalidChars
  else .ok ()

/-! ## The file planner (`getFiles`, `getBasefiles`) -/

/-- Go `type ManifestFile struct { path string; content []byte }`. -/
structure ManifestFile where
  path : String
  content : String
deriving DecidableEq

/-- Model of `filepath.Join(a, b)` for the clean, `..`-free paths this code
produces: joining with the separator, where joining with an empty first
component yields the second unchanged. -/
def goJoin (a b : String) : String :=
  if a = "" then b else a ++ sep ++ b

/-- Go `getFiles(cdir string, module string) []ManifestFile`: the seven
module-scoped manifest files. -/
def getFiles (cdir : String) (module : String) : List ManifestFile :=
  [ { path := goJoin cdir (transformModuleName IngressFileName module),
      content := transform defaultIngress module },
    { path := goJoin cdir (transformModuleName DeploymentName module),
      content := transform defaultDeployment module },
    { path := goJoin cdir (transformModuleName ServiceName module),
      content := transform defaultService module },
    { path := goJoin cdir (transformModuleName ServiceAccountName module),
      content := transform defaultServiceAccount module },
    { path := goJoin cdir (transformModuleName HorizontalPodAutoscalerName module),
      content := transform defaultHorizontalPodAutoscaler module },
    { path := goJoin cdir (transformModuleName HelpersName module),
      content := transform defaultHelpers module },
    { path := goJoin cdir (transformModuleName TestConnectionName module),
      content := transform defaultTestConnection module } ]

/-- Go `getBasefiles(cdir string, module string, chartname string)`: the
values file, chart metadata file, ignore file and NOTES.txt. -/
def getBasefiles (cdir : String) (module : String) (chartname : String) : List ManifestFile :=
  [ { path := goJoin cdir ValuesfileName,
      content := transform defaultValues module },
    { path := goJoin cdir ChartfileName,
      content := sprintfS defaultChartfile chartname },
    { path := goJoin cdir IgnorefileName,
      content := defaultIgnore },
    { path := goJoin cdir (transformModuleName NotesName module),
      content := transform defaultNotes module } ]


/-! ## The placeholder-bearing template bodies are marker-segmented:
apart from the `<MODULE_NAME>` occurrences they contain no `'<'`. -/

theorem markerL_eq : markerL = '<' :: "MODULE_NAME>".data := rfl

theorem transform_data (src m : String) :
    (transform src m).data = replaceAll markerL m.data src.data := rfl

set_option maxRecDepth 400000 in
theorem markerSeg_defaultValues : MarkerSeg markerL defaultValues.data := by
  rw [markerL_eq]
  simp only [defaultValues, String.data_append, List.append_assoc,
    show moduleNameMarker.data = '<' :: "MODULE_NAME>".data from rfl]
  repeat
    first
      | exact MarkerSeg.nil
      | refine MarkerSeg.marker _ ?_
      | refine MarkerSeg.chunk _ _ (by decide) ?_
      | exact MarkerSeg.single _ _ (by decide)

set_option maxRecDepth 400000 in
theorem markerSeg_defaultIngress : MarkerSeg markerL defaultIngress.data := by
  rw [markerL_eq]
  simp only [defaultIngress, String.data_append, List.append_assoc,
    show moduleNameMarker.data = '<' :: "MODULE_NAME>".data from rfl]
  repeat
    first
      | exact MarkerSeg.nil
      | refine MarkerSeg.marker _ ?_
      | refine MarkerSeg.chunk _ _ (by decide) ?_
      | exact MarkerSeg.single _ _ (by decide)

set_option maxRecDepth 400000 in
theorem markerSeg_defaultDeployment : MarkerSeg markerL defaultDeployment.data := by
  rw [markerL_eq]
  simp only [defaultDeployment, String.data_append, List.append_assoc,
    show moduleNameMarker.data = '<' :: "MODULE_NAME>".data from rfl]
  repeat
    first
      | exact MarkerSeg.nil
      | refine MarkerSeg.marker _ ?_
      | refine MarkerSeg.chunk _ _ (by decide) ?_
      | exact MarkerSeg.single _ _ (by decide)

set_option maxRecDepth 400000 in
theorem markerSeg_defaultService : MarkerSeg markerL defaultService.data := by
  rw [markerL_eq]
  simp only [defaultService, String.data_append, List.append_assoc,
    show moduleNameMarker.data = '<' :: "MODULE_NAME>".data from rfl]
  repeat
    first
      | exact MarkerSeg.nil
      | refine MarkerSeg.marker _ ?_
      | refine MarkerSeg.chunk _ _ (by decide) ?_
      | exact MarkerSeg.single _ _ (by decide)

set_option maxRecDepth 400000 in
theorem markerSeg_defaultServiceAccount : MarkerSeg markerL defaultServiceAccount.data := by
  rw [markerL_eq]
  simp only [defaultServiceAccount, String.data_append, List.append_assoc,
    show moduleNameMarker.data = '<' :: "MODULE_NAME>".data from rfl]
  repeat
    first
      | exact MarkerSeg.nil
      | refine MarkerSeg.marker _ ?_
      | refine MarkerSeg.chunk _ _ (by decide) ?_
      | exact MarkerSeg.single _ _ (by decide)

set_option maxRecDepth 400000 in
theorem markerSeg_defaultHorizontalPodAutoscaler : MarkerSeg markerL defaultHorizontalPodAutoscaler.data := by
  rw [markerL_eq]
  simp only [defaultHorizontalPodAutoscaler, String.data_append, List.append_assoc,
    show moduleNameMarker.data = '<' :: "MODULE_NAME>".data from rfl]
  repeat
    first
      | exact MarkerSeg.nil
      | refine MarkerSeg.marker _ ?_
      | refine MarkerSeg.chunk _ _ (by decide) ?_
      | exact MarkerSeg.single _ _ (by decide)

set_option maxRecDepth 400000 in
theorem markerSeg_defaultNotes : MarkerSeg markerL defaultNotes.data := by
  rw [markerL_eq]
  simp only [defaultNotes, String.data_append, List.append_assoc,
    show moduleNameMarker.data = '<' :: "MODULE_NAME>".data from rfl]
  repeat
    first
      | exact MarkerSeg.nil
      | refine MarkerSeg.marker _ ?_
      | refine MarkerSeg.chunk _ _ (by decide) ?_
      | exact MarkerSeg.single _ _ (by decide)

set_option maxRecDepth 400000 in
theorem markerSeg_defaultHelpers : MarkerSeg markerL defaultHelpers.data := by
  rw [markerL_eq]
  simp only [defaultHelpers, String.data_append, List.append_assoc,
    show moduleNameMarker.data = '<' :: "MODULE_NAME>".data from rfl]
  repeat
    first
      | exact MarkerSeg.nil
      | refine MarkerSeg.marker _ ?_
      | refine MarkerSeg.chunk _ _ (by decide) ?_
      | exact MarkerSeg.single _ _ (by decide)

set_option maxRecDepth 400000 in
theorem markerSeg_defaultTestConnection : MarkerSeg markerL defaultTestConnection.data := by
  rw [markerL_eq]
  simp only [defaultTestConnection, String.data_append, List.append_assoc,
    show moduleNameMarker.data = '<' :: "MODULE_NAME>".data from rfl]
  repeat
    first
      | exact MarkerSeg.nil
      | refine MarkerSeg.marker _ ?_
      | refine MarkerSeg.chunk _ _ (by decide) ?_
      | exact MarkerSeg.single _ _ (by decide)


/-! ## Filesystem model

`Create` and `CreateManifest` interact with the operating system through
`os.Stat`, `os.MkdirAll`, `ioutil.WriteFile`, `os.OpenFile` (append) and
the diagnostic stream `Stderr`.  The state is modelled explicitly:
an association list from (resolved, absolute) path to entry, plus the
lines written to the diagnostic stream.  I/O failures are injected through
oracles (`wfail` for write/mkdir failures on a given path, `afail` for the
values-append step, `dfail` for the final `charts/` directory creation),
so the error-handling claims can quantify over them. -/

/-- A filesystem entry: a regular file with contents, or a directory. -/
inductive FSEntry
  | file (content : String)
  | dir
deriving DecidableEq

/-- Filesystem and diagnostic-stream state. -/
structure FS where
  entries : List (String × FSEntry)
  stderrLines : List String
deriving DecidableEq

/-- `os.Stat`-style lookup. -/
def FS.lookup (fs : FS) (p : String) : Option FSEntry :=
  (fs.entries.find? (fun e => e.1 == p)).map (·.2)

/-- Replace the entry at a key, or append a new binding. -/
def setEntries : List (String × FSEntry) → String → FSEntry → List (String × FSEntry)
  | [], p, e => [(p, e)]
  | (q, d) :: rest, p, e =>
    if q == p then (q, e) :: rest else (q, d) :: setEntries rest p e

/-- `ioutil.WriteFile`-style state effect: create or truncate-and-rewrite. -/
def FS.setFile (fs : FS) (p : String) (c : String) : FS :=
  { fs with entries := setEntries fs.entries p (.file c) }

/-- `os.MkdirAll`-style state effect, recorded for the directory itself
(creating an already existing directory is a no-op; creation over an
existing file is an error in Go and is covered by the failure oracles). -/
def FS.mkdirAll (fs : FS) (p : String) : FS :=
  if (fs.lookup p).isSome then fs else { fs with entries := fs.entries ++ [(p, .dir)] }

/-- A line printed to the `Stderr` diagnostic stream. -/
def FS.warn (fs : FS) (line : String) : FS :=
  { fs with stderrLines := fs.stderrLines ++ [line] }

/-- Whether a path is absolute (`filepath.IsAbs`): it starts with the
separator. -/
def isAbs (p : String) : Bool :=
  p.data.head? == some '/' 

/-- Model of `filepath.Abs(dir)` for the clean paths considered here:
relative paths are resolved against the process working directory. -/
def absPath (cwd dir : String) : String :=
  if isAbs dir then dir else goJoin cwd dir

/-- A possibly relative path handed to an OS call is resolved against the
process working directory. -/
def resolve (cwd p : String) : String :=
  if isAbs p then p else goJoin cwd p

/-- Model of `filepath.Dir` for the clean paths considered here: strip the
last component; `.` when there is no separator, `/` at the root. -/
def dirOf (p : String) : String :=
  match p.data.reverse.dropWhile (fun c => !(c == '/')) with
  | [] => "."
  | _ :: [] => "/"
  | _ :: rest => ⟨rest.reverse⟩

/-- Go `writeFile(name string, content []byte) error`:
`os.MkdirAll(filepath.Dir(name), 0755)` then `ioutil.WriteFile(name,
content, 0644)`; `wfail` injects the I/O failures of either step.  The
path received here has already been resolved against the cwd. -/
def writeFile (wfail : String → Bool) (fs : FS) (p : String) (content : String) :
    Except String FS :=
  if wfail p then .error p
  else .ok ((fs.mkdirAll (dirOf p)).setFile p content)

/-- The warning `fmt.Fprintf(Stderr, "WARNING: File %q already exists.
Overwriting.\n", file.path)`. -/
def overwriteWarning (p : String) : String :=
  "WARNING: File \"" ++ p ++ "\" already exists. Overwriting.\n"

/-- Go `writeFiles(files []ManifestFile) error`: for each planned file,
warn on `Stderr` if `os.Stat` finds the path already present, then write;
stop and return the error on the first failing write. -/
def writeFiles (wfail : String → Bool) (cwd : String) :
    List ManifestFile → FS → FS × Option String
  | [], fs => (fs, none)
  | f :: rest, fs =>
    let rp := resolve cwd f.path
    let fs1 := if (fs.lookup rp).isSome then fs.warn (overwriteWarning f.path) else fs
    match writeFile wfail fs1 rp f.content with
    | .error e => (fs1, some e)
    | .ok fs2 => writeFiles wfail cwd rest fs2

/-- The error lines of `appendToValuesFile` (`ERROR: Opening to %q.` /
`ERROR: Writing to %q.`); the injected failure is modelled as the logged
write-error line. -/
def appendErrorLine : String := "ERROR: Writing to \"values.yaml\".\n"

/-- Go `appendToValuesFile(module string)`: open `values.yaml` in
append-create mode and write `transform(defaultValues, module)`; failures
are only logged to `Stderr`, never propagated (the function returns
nothing). -/
def appendToValuesFile (afail : Bool) (cwd : String) (module : String) (fs : FS) : FS :=
  if afail then fs.warn appendErrorLine
  else
    let p := resolve cwd ValuesfileName
    let old := match fs.lookup p with
      | some (.file c) => c
      | _ => ""
    fs.setFile p (old ++ transform defaultValues module)

/-- The error values `Create` can return. -/
inductive CreateError
  /-- the validator's error, surfaced unchanged -/
  | invalidName (e : NameError)
  /-- `os.Stat(path)` failed: the base directory does not exist -/
  | statBase (path : String)
  /-- the base path exists but is not a directory -/
  | notDirectory (path : String)
  /-- "file %s already exists and is not a directory" -/
  | existsNotDir (path : String)
  /-- `os.MkdirAll(cdir/charts)` failed -/
  | mkdirCharts (path : String)
deriving DecidableEq

/-- The `(string, error)` pair returned by `Create`, together with the
final filesystem/diagnostic state. -/
structure CreateResult where
  path : String
  err : Option CreateError
  fs : FS
deriving DecidableEq

/-- Go `Create(chartname, dir string) (string, error)` of
`pkg/chartutil/create.go`: validate the name; resolve and check the base
directory; then probe the cwd for `values.yaml` — if present, generate a
module named `chartname` rooted at the cwd and append its values fragment
(the `writeFiles` error is discarded, as in the source); if absent,
scaffold a new chart under `cdir` with the sentinel module `"main"` and
create the empty `charts/` directory. -/
def Create (wfail : String → Bool) (afail dfail : Bool) (cwd : String)
    (chartname dir : String) (fs : FS) : CreateResult :=
  match validateChartName chartname with
  | .error e => ⟨"", some (.invalidName e), fs⟩
  | .ok _ =>
    let path := absPath cwd dir
    match fs.lookup path with
    | none => ⟨path, some (.statBase path), fs⟩
    | some (.file _) => ⟨path, some (.notDirectory path), fs⟩
    | some .dir =>
      let cdir := goJoin path chartname
      match fs.lookup cdir with
      | some (.file _) => ⟨cdir, some (.existsNotDir cdir), fs⟩
      | _ =>
        if (fs.lookup (resolve cwd ValuesfileName)).isSome then
          -- add-module: `module = chartname`; the error of `writeFiles`
          -- is not inspected by the source either
          let fs1 := (writeFiles wfail cwd (getFiles "" chartname) fs).1
          let fs2 := appendToValuesFile afail cwd chartname fs1
          ⟨cdir, none, fs2⟩
        else
          -- new-unit: `module = "main"`
          let fs1 := (writeFiles wfail cwd (getBasefiles cdir "main" chartname) fs).1
          let fs2 := (writeFiles wfail cwd (getFiles cdir "main") fs1).1
          if dfail then ⟨cdir, some (.mkdirCharts (goJoin cdir ChartsDir)), fs2⟩
          else ⟨cdir, none, fs2.mkdirAll (goJoin cdir ChartsDir)⟩

/-! ## The manifest-kind generator (`CreateManifest` and its registry) -/

/-- Go `type Manifest struct { content string; values string }`. -/
structure Manifest where
  content : String
  values : String
deriving DecidableEq

/-- Go `var manifests = map[string]Manifest{...}`: the closed registry of
manifest kinds. -/
def manifests : List (String × Manifest) :=
  [ ("ingress", ⟨ingress, ingressValues⟩),
    ("service", ⟨service, serviceValues⟩),
    ("deployment", ⟨deployment, deploymentValues⟩) ]

/-- Go map indexing `manifests[manifest]`: a missing key yields the zero
value `Manifest{"", ""}` (no error, no panic). -/
def manifestsGet (k : String) : Manifest :=
  ((manifests.find? (fun e => e.1 == k)).map (·.2)).getD ⟨"", ""⟩

/-- Go `transformManifestName(src, chartname, manifestName)`:
`strings.ReplaceAll(strings.ReplaceAll(src, "<MANIFEST_NAME>",
manifestName), "<CHARTNAME>", chartname)`. -/
def transformManifestName (src chartname manifestName : String) : String :=
  ⟨replaceAll "<CHARTNAME>".data chartname.data
    (replaceAll "<MANIFEST_NAME>".data manifestName.data src.data)⟩

/-- The error values `CreateManifest` can return. -/
inductive ManifestError
  /-- `loader.Load(path)` failed -/
  | loadFailed
  /-- the loaded chart's name fails `validateChartName` -/
  | invalidName (e : NameError)
  /-- `os.Stat(path)` failed -/
  | statBase (path : String)
  /-- the cwd is not a directory -/
  | notDirectory (path : String)
  /-- `writeFile` failed -/
  | writeFailed (path : String)
deriving DecidableEq

/-- Go `CreateManifest(manifest string, name string) (string, error)`:
the cwd chart is loaded by the external loader (modelled by `loadedName`,
the chart name it returns, `none` when loading fails), its name is
validated, and a single manifest file
`templates/<name>_<manifest>.yaml` is written from the registry entry for
`manifest`, with the corresponding values fragment appended to
`values.yaml` (append failures are only logged via `log.Println`). -/
def CreateManifest (wfail : String → Bool) (afail : Bool) (cwd : String)
    (loadedName : Option String) (manifest name : String) (fs : FS) :
    String × Option ManifestError × FS :=
  match loadedName with
  | none => ("", some .loadFailed, fs)
  | some chartName =>
    match validateChartName chartName with
    | .error e => ("", some (.invalidName e), fs)
    | .ok _ =>
      match fs.lookup cwd with
      | none => (cwd, some (.statBase cwd), fs)
      | some (.file _) => (cwd, some (.notDirectory cwd), fs)
      | some .dir =>
        -- cdir := filepath.Join(path) = path = cwd; the cdir re-stat can
        -- only repeat the verdict of the stat above
        let cdir := cwd
        let fp := goJoin cdir (TemplatesDir ++ sep ++ name ++ "_" ++ manifest ++ ".yaml")
        let content := transformManifestName (manifestsGet manifest).content chartName name
        let fs1 := if (fs.lookup fp).isSome then fs.warn (overwriteWarning fp) else fs
        match writeFile wfail fs1 fp content with
        | .error e => (cdir, some (.writeFailed e), fs1)
        | .ok fs2 =>
          let fs3 :=
            if afail then fs2.warn appendErrorLine
            else
              let vp := goJoin cdir ValuesfileName
              let old := match fs2.lookup vp with
                | some (.file c) => c
                | _ => ""
              fs2.setFile vp
                (old ++ transformManifestName (manifestsGet manifest).values chartName name)
          (cdir, none, fs3)

/-! ## The clone path (`CreateFrom`): the pure template/values rewriting
handed to the external saver.  Loading and saving are external
collaborators; what `CreateFrom` itself contributes is the rewriting of
every template and of the raw `values.yaml` bytes with
`transform(_, "main")`. -/

/-- Model of `chart.File` (`Name`, `Data`). -/
structure ChartFile where
  name : String
  data : String
deriving DecidableEq

/-- The template-rewriting loop of `CreateFrom`:
`newData := transform(string(template.Data), "main")`. -/
def createFromTemplates (templates : List ChartFile) : List ChartFile :=
  templates.map (fun t => ⟨t.name, transform t.data "main"⟩)

/-- The raw-file rewriting loop of `CreateFrom`: the file named
`values.yaml` has its bytes rewritten with `transform(_, "main")`; other
raw files are left alone. -/
def createFromRaw (raw : List ChartFile) : List ChartFile :=
  raw.map (fun f => if f.name == ValuesfileName then ⟨f.name, transform f.data "main"⟩ else f)


/-! ## Lemmas about the filesystem model -/

/-- The all-clear failure oracle: no injected I/O failures. -/
def noFail : String → Bool := fun _ => false

theorem lookup_warn (fs : FS) (l : String) (p : String) :
    (fs.warn l).lookup p = fs.lookup p := rfl

theorem stderr_warn (fs : FS) (l : String) :
    (fs.warn l).stderrLines = fs.stderrLines ++ [l] := rfl

theorem stderr_setFile (fs : FS) (p c : String) :
    (fs.setFile p c).stderrLines = fs.stderrLines := rfl

theorem stderr_mkdirAll (fs : FS) (p : String) :
    (fs.mkdirAll p).stderrLines = fs.stderrLines := by
  unfold FS.mkdirAll
  split <;> rfl

theorem find?_setEntries (p : String) (e : FSEntry) (q : String) :
    ∀ entries : List (String × FSEntry),
      (setEntries entries p e).find? (fun x => x.1 == q) =
        if q = p then some (p, e) else entries.find? (fun x => x.1 == q) := by
  intro entries
  induction entries with
  | nil =>
    by_cases h : q = p
    · subst h
      simp [setEntries, List.find?]
    · have hpq : (p == q) = false := by
        simp only [beq_eq_false_iff_ne, ne_eq]
        exact fun hh => h hh.symm
      simp [setEntries, List.find?, hpq, h]
  | cons kv rest ih =>
    obtain ⟨k, d⟩ := kv
    by_cases hkp : k = p
    · subst hkp
      simp only [setEntries, beq_self_eq_true, if_true]
      by_cases hq : q = k
      · subst hq
        simp [List.find?]
      · have h1 : (k == q) = false := by
          simp only [beq_eq_false_iff_ne, ne_eq]
          exact fun hh => hq hh.symm
        simp [List.find?, h1, hq]
    · have hk : (k == p) = false := by
        simp only [beq_eq_false_iff_ne, ne_eq]
        exact hkp
      simp only [setEntries, hk, Bool.false_eq_true, if_false]
      by_cases hq : q = k
      · subst hq
        simp [List.find?, hkp]
      · have h1 : (k == q) = false := by
          simp only [beq_eq_false_iff_ne, ne_eq]
          exact fun hh => hq hh.symm
        simp [List.find?, h1, ih]

theorem lookup_setFile (fs : FS) (p c : String) (q : String) :
    (fs.setFile p c).lookup q = if q = p then some (.file c) else fs.lookup q := by
  unfold FS.setFile FS.lookup
  simp only [find?_setEntries]
  by_cases h : q = p <;> simp [h]

theorem lookup_mkdirAll (fs : FS) (d : String) (q : String) :
    (fs.mkdirAll d).lookup q =
      if q = d ∧ fs.lookup d = none then some .dir else fs.lookup q := by
  unfold FS.mkdirAll
  by_cases hd : (fs.lookup d).isSome
  · have hne : ¬ (fs.lookup d = none) := by
      intro h; rw [h] at hd; simp at hd
    simp [hd, hne]
  · have hdnone : fs.lookup d = none := by
      cases h : fs.lookup d with
      | none => rfl
      | some e => rw [h] at hd; simp at hd
    simp only [hd, Bool.false_eq_true, if_false]
    unfold FS.lookup at hdnone ⊢
    rw [List.find?_append]
    by_cases hq : q = d
    · subst hq
      cases hfind : fs.entries.find? (fun e => e.1 == q) with
      | none => simp [hfind, List.find?, hdnone]
      | some e =>
        rw [hfind] at hdnone
        simp at hdnone
    · cases hfind : fs.entries.find? (fun e => e.1 == q) with
      | none =>
        have hne : (d == q) = false := by
          simp only [beq_eq_false_iff_ne, ne_eq]
          exact fun hh => hq hh.symm
        simp [hfind, List.find?, hne, hq]
      | some e => simp [hfind, hq]

/-- The content written last for a path by a plan (later entries win). -/
def lastSet (cwd : String) : List ManifestFile → String → Option String
  | [], _ => none
  | f :: rest, p =>
    match lastSet cwd rest p with
    | some c => some c
    | none => if resolve cwd f.path == p then some f.content else none

/-- Whether a path is the parent directory of some planned file. -/
def isPlanDir (cwd : String) (files : List ManifestFile) (p : String) : Bool :=
  files.any (fun f => dirOf (resolve cwd f.path) == p)

theorem writeFiles_err (w : String → Bool) (cwd : String) :
    ∀ (files : List ManifestFile) (fs : FS),
      (∀ f ∈ files, w (resolve cwd f.path) = false) →
      (writeFiles w cwd files fs).2 = none := by
  intro files
  induction files with
  | nil => intro fs _; rfl
  | cons f rest ih =>
    intro fs hw
    have hwf := hw f (List.mem_cons_self f rest)
    simp only [writeFiles, writeFile, hwf, Bool.false_eq_true, if_false]
    exact ih _ (fun g hg => hw g (List.mem_cons_of_mem f hg))

/-- Full lookup characterization of the no-failure write loop: the last
planned write to a path wins; otherwise an existing entry is preserved;
otherwise a parent directory of a planned file has been created. -/
theorem writeFiles_lookup (w : String → Bool) (cwd : String) :
    ∀ (files : List ManifestFile) (fs : FS) (p : String),
      (∀ f ∈ files, w (resolve cwd f.path) = false) →
      (writeFiles w cwd files fs).1.lookup p =
        match lastSet cwd files p with
        | some c => some (.file c)
        | none =>
          match fs.lookup p with
          | some e => some e
          | none => if isPlanDir cwd files p then some .dir else none := by
  intro files
  induction files with
  | nil =>
    intro fs p _
    simp only [writeFiles, lastSet, isPlanDir, List.any_nil, Bool.false_eq_true, if_false]
    cases fs.lookup p <;> rfl
  | cons f rest ih =>
    intro fs p hw
    have hwf := hw f (List.mem_cons_self f rest)
    simp only [writeFiles, writeFile, hwf, Bool.false_eq_true, if_false]
    rw [ih _ _ (fun g hg => hw g (List.mem_cons_of_mem f hg))]
    have hwlk : ∀ q, ((if (fs.lookup (resolve cwd f.path)).isSome then
        fs.warn (overwriteWarning f.path) else fs)).lookup q = fs.lookup q := by
      intro q
      cases hw : (fs.lookup (resolve cwd f.path)).isSome <;> simp [hw, lookup_warn]
    simp only [lastSet, isPlanDir, List.any_cons]
    cases hls : lastSet cwd rest p with
    | some c => rfl
    | none =>
      rw [lookup_setFile, lookup_mkdirAll, hwlk, hwlk]
      by_cases h1 : p = resolve cwd f.path
      · have : (resolve cwd f.path == p) = true := by simp [h1]
        simp [h1, this]
      · have hbp : (resolve cwd f.path == p) = false := by
          simp only [beq_eq_false_iff_ne, ne_eq]
          exact fun h => h1 h.symm
        simp only [h1, if_false, hbp]
        by_cases h2 : p = dirOf (resolve cwd f.path) ∧
            fs.lookup (dirOf (resolve cwd f.path)) = none
        · obtain ⟨h2a, h2b⟩ := h2
          have hfp : fs.lookup p = none := h2a ▸ h2b
          have hdp : (dirOf (resolve cwd f.path) == p) = true := by simp [h2a]
          simp [h2a, h2b, hfp, hdp]
        · simp only [h2, if_false]
          cases hfp : fs.lookup p with
          | some e => rfl
          | none =>
            have hdp : (dirOf (resolve cwd f.path) == p) = false := by
              by_cases hd : p = dirOf (resolve cwd f.path)
              · exact absurd ⟨hd, hd ▸ hfp⟩ h2
              · simp only [beq_eq_false_iff_ne, ne_eq]
                exact fun hh => hd hh.symm
            simp [hdp]

theorem lastSet_some_mem (cwd : String) (p : String) (c : String) :
    ∀ files : List ManifestFile, lastSet cwd files p = some c →
      ∃ g ∈ files, resolve cwd g.path = p ∧ g.content = c := by
  intro files
  induction files with
  | nil => intro h; cases h
  | cons f rest ih =>
    intro h
    rw [lastSet] at h
    cases hrs : lastSet cwd rest p with
    | some c' =>
      rw [hrs] at h
      cases h
      obtain ⟨g, hg, hgp, hgc⟩ := ih hrs
      exact ⟨g, List.mem_cons_of_mem f hg, hgp, hgc⟩
    | none =>
      rw [hrs] at h
      by_cases hb : (resolve cwd f.path == p) = true
      · rw [if_pos hb] at h
        cases h
        exact ⟨f, List.mem_cons_self f rest, by simpa using hb, rfl⟩
      · rw [if_neg (by simpa using hb)] at h
        cases h

theorem lastSet_isSome_of_mem (cwd : String) (f : ManifestFile) :
    ∀ files : List ManifestFile, f ∈ files →
      (lastSet cwd files (resolve cwd f.path)).isSome := by
  intro files
  induction files with
  | nil => intro h; cases h
  | cons f' rest ih =>
    intro h
    rw [List.mem_cons] at h
    rw [lastSet]
    cases hrs : lastSet cwd rest (resolve cwd f.path) with
    | some c => simp
    | none =>
      rcases h with h | h
      · subst h
        simp
      · have := ih h
        rw [hrs] at this
        simp at this

/-- Every planned path ends up holding the content of some plan entry for
that path. -/
theorem writeFiles_mem (w : String → Bool) (cwd : String) (files : List ManifestFile)
    (fs : FS) (hw : ∀ f ∈ files, w (resolve cwd f.path) = false)
    (f : ManifestFile) (hf : f ∈ files) :
    ∃ g ∈ files, resolve cwd g.path = resolve cwd f.path ∧
      (writeFiles w cwd files fs).1.lookup (resolve cwd f.path) =
        some (.file g.content) := by
  have hs := lastSet_isSome_of_mem cwd f files hf
  obtain ⟨c, hc⟩ : ∃ c, lastSet cwd files (resolve cwd f.path) = some c := by
    cases h : lastSet cwd files (resolve cwd f.path) with
    | none => rw [h] at hs; simp at hs
    | some c => exact ⟨c, rfl⟩
  obtain ⟨g, hg, hgp, hgc⟩ := lastSet_some_mem cwd (resolve cwd f.path) c files hc
  refine ⟨g, hg, hgp, ?_⟩
  rw [writeFiles_lookup w cwd files fs _ hw, hc, hgc]

/-- Paths not planned (neither as a file nor as a parent directory) are
untouched by the write loop. -/
theorem writeFiles_frame (w : String → Bool) (cwd : String) (files : List ManifestFile)
    (fs : FS) (hw : ∀ f ∈ files, w (resolve cwd f.path) = false)
    (p : String) (hset : lastSet cwd files p = none)
    (hdir : isPlanDir cwd files p = false) :
    (writeFiles w cwd files fs).1.lookup p = fs.lookup p := by
  rw [writeFiles_lookup w cwd files fs p hw, hset, hdir]
  cases fs.lookup p <;> rfl

/-- The write loop never deletes: an existing entry keeps existing. -/
theorem writeFiles_isSome_mono (w : String → Bool) (cwd : String) (files : List ManifestFile)
    (fs : FS) (hw : ∀ f ∈ files, w (resolve cwd f.path) = false)
    (p : String) (h : (fs.lookup p).isSome) :
    ((writeFiles w cwd files fs).1.lookup p).isSome := by
  rw [writeFiles_lookup w cwd files fs p hw]
  cases lastSet cwd files p with
  | some c => simp
  | none =>
    cases hf : fs.lookup p with
    | some e => simp
    | none => rw [hf] at h; simp at h

theorem mkdirAll_isSome_mono (fs : FS) (d p : String)
    (h : (fs.lookup p).isSome) : ((fs.mkdirAll d).lookup p).isSome := by
  rw [lookup_mkdirAll]
  by_cases hc : p = d ∧ fs.lookup d = none
  · simp [hc]
  · simp [hc, h]

/-- With every planned path already present, the write loop emits exactly
one overwrite warning per planned file, in plan order. -/
theorem writeFiles_stderr_allPresent (w : String → Bool) (cwd : String) :
    ∀ (files : List ManifestFile) (fs : FS),
      (∀ f ∈ files, w (resolve cwd f.path) = false) →
      (∀ f ∈ files, (fs.lookup (resolve cwd f.path)).isSome) →
      (writeFiles w cwd files fs).1.stderrLines =
        fs.stderrLines ++ files.map (fun f => overwriteWarning f.path) := by
  intro files
  induction files with
  | nil => intro fs _ _; simp [writeFiles]
  | cons f rest ih =>
    intro fs hw h
    have hf := h f (List.mem_cons_self f rest)
    have hwf := hw f (List.mem_cons_self f rest)
    simp only [writeFiles, writeFile, hwf, Bool.false_eq_true, if_false, hf, if_true]
    rw [ih _ (fun g hg => hw g (List.mem_cons_of_mem f hg))]
    · simp [stderr_setFile, stderr_mkdirAll, stderr_warn, FS.warn]
    · intro g hg
      have hgs := h g (List.mem_cons_of_mem f hg)
      rw [lookup_setFile]
      by_cases h1 : resolve cwd g.path = resolve cwd f.path
      · simp [h1]
      · simp only [h1, if_false]
        apply mkdirAll_isSome_mono
        simpa [lookup_warn, hf] using hgs


/-! ## Closed forms of the planned file names: the `<MODULE>_` placeholder
plus the literal `_` of the kind suffix yield a double underscore. -/

theorem moduleNameTemplate_data : moduleNameTemplate.data = '<' :: "MODULE>_".data := rfl

theorem transformModuleName_closed (pre post : String) (m : String)
    (hpre : noAngle pre.data = true) (hpost : noAngle post.data = true) :
    transformModuleName (pre ++ moduleNameTemplate ++ post) m = pre ++ (m ++ "_") ++ post := by
  apply String.ext
  show replaceAll moduleNameTemplate.data (m ++ "_").data
      ((pre ++ moduleNameTemplate ++ post)).data = _
  rw [moduleNameTemplate_data]
  simp only [String.data_append, List.append_assoc, moduleNameTemplate_data]
  rw [replaceAll_chunk_append _ _ pre.data _ hpre,
    replaceAll_pat_append _ _ _ (by simp),
    replaceAll_of_noAngle _ _ post.data hpost]
  simp [List.append_assoc]

theorem tmn_IngressFileName (m : String) :
    transformModuleName IngressFileName m = "templates/" ++ m ++ "__ingress.yaml" := by
  have h : IngressFileName = "templates/" ++ moduleNameTemplate ++ "_ingress.yaml" := by
    apply String.ext
    simp [IngressFileName, TemplatesDir, TemplatesTestsDir, sep, String.data_append]
  rw [h, transformModuleName_closed _ _ m (by decide) (by decide)]
  apply String.ext
  simp [String.data_append]

theorem tmn_DeploymentName (m : String) :
    transformModuleName DeploymentName m = "templates/" ++ m ++ "__deployment.yaml" := by
  have h : DeploymentName = "templates/" ++ moduleNameTemplate ++ "_deployment.yaml" := by
    apply String.ext
    simp [DeploymentName, TemplatesDir, TemplatesTestsDir, sep, String.data_append]
  rw [h, transformModuleName_closed _ _ m (by decide) (by decide)]
  apply String.ext
  simp [String.data_append]

theorem tmn_ServiceName (m : String) :
    transformModuleName ServiceName m = "templates/" ++ m ++ "__service.yaml" := by
  have h : ServiceName = "templates/" ++ moduleNameTemplate ++ "_service.yaml" := by
    apply String.ext
    simp [ServiceName, TemplatesDir, TemplatesTestsDir, sep, String.data_append]
  rw [h, transformModuleName_closed _ _ m (by decide) (by decide)]
  apply String.ext
  simp [String.data_append]

theorem tmn_ServiceAccountName (m : String) :
    transformModuleName ServiceAccountName m = "templates/" ++ m ++ "__serviceaccount.yaml" := by
  have h : ServiceAccountName = "templates/" ++ moduleNameTemplate ++ "_serviceaccount.yaml" := by
    apply String.ext
    simp [ServiceAccountName, TemplatesDir, TemplatesTestsDir, sep, String.data_append]
  rw [h, transformModuleName_closed _ _ m (by decide) (by decide)]
  apply String.ext
  simp [String.data_append]

theorem tmn_HorizontalPodAutoscalerName (m : String) :
    transformModuleName HorizontalPodAutoscalerName m = "templates/" ++ m ++ "__hpa.yaml" := by
  have h : HorizontalPodAutoscalerName = "templates/" ++ moduleNameTemplate ++ "_hpa.yaml" := by
    apply String.ext
    simp [HorizontalPodAutoscalerName, TemplatesDir, TemplatesTestsDir, sep, String.data_append]
  rw [h, transformModuleName_closed _ _ m (by decide) (by decide)]
  apply String.ext
  simp [String.data_append]

theorem tmn_HelpersName (m : String) :
    transformModuleName HelpersName m = "templates/_" ++ m ++ "__helpers.tpl" := by
  have h : HelpersName = "templates/_" ++ moduleNameTemplate ++ "_helpers.tpl" := by
    apply String.ext
    simp [HelpersName, TemplatesDir, TemplatesTestsDir, sep, String.data_append]
  rw [h, transformModuleName_closed _ _ m (by decide) (by decide)]
  apply String.ext
  simp [String.data_append]

theorem tmn_TestConnectionName (m : String) :
    transformModuleName TestConnectionName m = "templates/tests/" ++ m ++ "__test-connection.yaml" := by
  have h : TestConnectionName = "templates/tests/" ++ moduleNameTemplate ++ "_test-connection.yaml" := by
    apply String.ext
    simp [TestConnectionName, TemplatesDir, TemplatesTestsDir, sep, String.data_append]
  rw [h, transformModuleName_closed _ _ m (by decide) (by decide)]
  apply String.ext
  simp [String.data_append]

theorem tmn_NotesName (m : String) :
    transformModuleName NotesName m = NotesName := by
  apply String.ext
  show replaceAll moduleNameTemplate.data (m ++ "_").data NotesName.data = NotesName.data
  rw [moduleNameTemplate_data]
  exact replaceAll_of_noAngle _ _ NotesName.data (by decide)

/-! ## Unfolding lemmas for `Create` -/

theorem Create_invalidName (w : String → Bool) (a d : Bool) (cwd chartname dir : String)
    (fs : FS) (e : NameError) (hv : validateChartName chartname = .error e) :
    Create w a d cwd chartname dir fs = ⟨"", some (.invalidName e), fs⟩ := by
  simp [Create, hv]

theorem Create_addModule (w : String → Bool) (a d : Bool) (cwd chartname dir : String)
    (fs : FS)
    (hv : validateChartName chartname = .ok ())
    (hbase : fs.lookup (absPath cwd dir) = some .dir)
    (hcdir : ∀ c, fs.lookup (goJoin (absPath cwd dir) chartname) ≠ some (.file c))
    (hvals : (fs.lookup (resolve cwd ValuesfileName)).isSome = true) :
    Create w a d cwd chartname dir fs =
      ⟨goJoin (absPath cwd dir) chartname, none,
        appendToValuesFile a cwd chartname
          (writeFiles w cwd (getFiles "" chartname) fs).1⟩ := by
  unfold Create
  rw [hv]
  simp only [hbase]
  cases hc : fs.lookup (goJoin (absPath cwd dir) chartname) with
  | none => simp [hvals]
  | some entry =>
    cases entry with
    | file c => exact absurd hc (by simpa using hcdir c)
    | dir => simp [hvals]

theorem Create_newUnit (w : String → Bool) (a : Bool) (cwd chartname dir : String)
    (fs : FS)
    (hv : validateChartName chartname = .ok ())
    (hbase : fs.lookup (absPath cwd dir) = some .dir)
    (hcdir : ∀ c, fs.lookup (goJoin (absPath cwd dir) chartname) ≠ some (.file c))
    (hvals : fs.lookup (resolve cwd ValuesfileName) = none) :
    Create w a false cwd chartname dir fs =
      ⟨goJoin (absPath cwd dir) chartname, none,
        ((writeFiles w cwd (getFiles (goJoin (absPath cwd dir) chartname) "main")
            (writeFiles w cwd
              (getBasefiles (goJoin (absPath cwd dir) chartname) "main" chartname) fs).1).1).mkdirAll
          (goJoin (goJoin (absPath cwd dir) chartname) ChartsDir)⟩ := by
  unfold Create
  rw [hv]
  simp only [hbase]
  cases hc : fs.lookup (goJoin (absPath cwd dir) chartname) with
  | none => simp [hvals]
  | some entry =>
    cases entry with
    | file c => exact absurd hc (by simpa using hcdir c)
    | dir => simp [hvals]

/-- Every successful exit of `Create` returns `cdir = Abs(dir)/chartname`
— in the add-module branch just as in the new-unit branch. -/
theorem Create_success_path (w : String → Bool) (a d : Bool) (cwd chartname dir : String)
    (fs : FS) (h : (Create w a d cwd chartname dir fs).err = none) :
    (Create w a d cwd chartname dir fs).path = goJoin (absPath cwd dir) chartname := by
  unfold Create at h ⊢
  cases hv : validateChartName chartname with
  | error e =>
    try simp only [hv] at h
    try simp only [hv]
    simp at h
  | ok u =>
    cases u
    try simp only [hv] at h
    try simp only [hv]
    cases hb : fs.lookup (absPath cwd dir) with
    | none =>
      try simp only [hb] at h
      simp at h
    | some entry =>
      cases entry with
      | file c =>
        try simp only [hb] at h
        simp at h
      | dir =>
        try simp only [hb] at h
        try simp only [hb]
        cases hc : fs.lookup (goJoin (absPath cwd dir) chartname) with
        | none =>
          try simp only [hc] at h
          try simp only [hc]
          by_cases hvp : (fs.lookup (resolve cwd ValuesfileName)).isSome
          · simp [hvp]
          · try simp only [hvp, Bool.false_eq_true, if_false] at h
            try simp only [hvp, Bool.false_eq_true, if_false]
            cases d with
            | false => simp
            | true => simp at h
        | some entry =>
          cases entry with
          | file c =>
            try simp only [hc] at h
            simp at h
          | dir =>
            try simp only [hc] at h
            try simp only [hc]
            by_cases hvp : (fs.lookup (resolve cwd ValuesfileName)).isSome
            · simp [hvp]
            · try simp only [hvp, Bool.false_eq_true, if_false] at h
              try simp only [hvp, Bool.false_eq_true, if_false]
              cases d with
              | false => simp
              | true => simp at h


/-! ## Path algebra helpers -/

theorem goJoin_inj (a x y : String) (h : goJoin a x = goJoin a y) : x = y := by
  unfold goJoin at h
  by_cases ha : a = ""
  · simpa [ha] using h
  · simp only [ha, if_neg, not_false_iff, if_false] at h
    apply String.ext
    have hd := congrArg String.data h
    simp only [String.data_append, List.append_assoc] at hd
    exact List.append_cancel_left (List.append_cancel_left hd)

theorem ne_of_head? (x y : String) (h : x.data.head? ≠ y.data.head?) : x ≠ y :=
  fun he => h (he ▸ rfl)

theorem head?_lit_append (s : String) (c : Char) (cs : List Char)
    (hs : s.data = c :: cs) (x : String) : (s ++ x).data.head? = some c := by
  rw [String.data_append, hs]
  rfl

theorem head?_lit_append₂ (s : String) (c : Char) (cs : List Char)
    (hs : s.data = c :: cs) (x y : String) : ((s ++ x) ++ y).data.head? = some c := by
  rw [String.data_append, String.data_append, hs]
  rfl

theorem isAbs_of_head (p : String) (c : Char) (h : p.data.head? = some c)
    (hc : c ≠ '/') : isAbs p = false := by
  unfold isAbs
  rw [h]
  simpa using hc

theorem resolve_rel (cwd p : String) (h : isAbs p = false) :
    resolve cwd p = goJoin cwd p := by
  simp [resolve, h]

theorem goJoin_data (a b : String) (ha : a ≠ "") :
    (goJoin a b).data = a.data ++ '/' :: b.data := by
  simp [goJoin, ha, String.data_append]
  rfl

theorem dirOf_eq (u v : List Char) (hv : '/' ∉ v) (hu : u ≠ []) :
    dirOf ⟨u ++ '/' :: v⟩ = ⟨u⟩ := by
  unfold dirOf
  have h1 : (u ++ '/' :: v).reverse = v.reverse ++ '/' :: u.reverse := by
    simp
  have h2 : ∀ l : List Char, '/' ∉ l →
      (l ++ '/' :: u.reverse).dropWhile (fun c => !(c == '/')) = '/' :: u.reverse := by
    intro l
    induction l with
    | nil =>
      intro _
      simp [List.dropWhile]
    | cons c cs ih =>
      intro hl
      rw [List.mem_cons] at hl
      push_neg at hl
      rw [List.cons_append, List.dropWhile_cons]
      have : (!(c == '/')) = true := by
        simp only [Bool.not_eq_true']
        simpa using fun h => hl.1 h.symm
      rw [this]
      simp only [if_true]
      exact ih hl.2
  show (match ((⟨u ++ '/' :: v⟩ : String).data.reverse.dropWhile fun c => !(c == '/')) with
    | [] => "."
    | _ :: [] => "/"
    | _ :: rest => (⟨rest.reverse⟩ : String)) = (⟨u⟩ : String)
  have hdata : (⟨u ++ '/' :: v⟩ : String).data = u ++ '/' :: v := rfl
  rw [hdata, h1, h2 v.reverse (by simpa using hv)]
  cases hur : u.reverse with
  | nil =>
    have : u = [] := by simpa using congrArg List.reverse hur
    exact absurd this hu
  | cons a t =>
    exact congrArg String.mk (by rw [← hur, List.reverse_reverse])

/-! ## Pointwise view of a scaffolding pass, for the idempotence claim -/

/-- The pointwise effect of one no-failure `writeFiles` pass on the entry
at a path: the plan's last write wins, an existing entry survives, and a
freshly created parent directory appears. -/
def stepL (o : Option String) (b : Bool) (v : Option FSEntry) : Option FSEntry :=
  match o with
  | some c => some (.file c)
  | none =>
    match v with
    | some e => some e
    | none => if b then some .dir else none

/-- The pointwise effect of `MkdirAll` on the entry at a path. -/
def stepM (c : Prop) [Decidable c] (v : Option FSEntry) : Option FSEntry :=
  if c ∧ v = none then some .dir else v

theorem writeFiles_lookup_stepL (w : String → Bool) (cwd : String)
    (files : List ManifestFile) (fs : FS) (p : String)
    (hw : ∀ f ∈ files, w (resolve cwd f.path) = false) :
    (writeFiles w cwd files fs).1.lookup p =
      stepL (lastSet cwd files p) (isPlanDir cwd files p) (fs.lookup p) := by
  rw [writeFiles_lookup w cwd files fs p hw]
  rfl

theorem mkdirAll_lookup_stepM (fs : FS) (d p : String) :
    (fs.mkdirAll d).lookup p = stepM (p = d) (fs.lookup p) := by
  rw [lookup_mkdirAll]
  unfold stepM
  by_cases h : p = d
  · subst h; rfl
  · simp [h]

/-- Applying the same two write passes and directory creation twice gives
the same entry as applying them once. -/
theorem step_idem (o1 o2 : Option String) (b1 b2 : Bool) (c : Prop) [Decidable c]
    (v : Option FSEntry) :
    stepM c (stepL o2 b2 (stepL o1 b1 (stepM c (stepL o2 b2 (stepL o1 b1 v))))) =
      stepM c (stepL o2 b2 (stepL o1 b1 v)) := by
  by_cases hc : c <;>
    cases o1 <;> cases o2 <;> cases v <;> cases b1 <;> cases b2 <;>
      simp [stepL, stepM, hc]

/-! ## Consequences of a successful name validation -/

theorem validateChartName_ok (name : String) (h : validateChartName name = .ok ()) :
    name ≠ "" ∧ name.length ≤ maxChartNameLength ∧
      ∀ c ∈ name.data, isNameChar c = true := by
  unfold validateChartName at h
  by_cases h1 : name = "" ∨ name.length > maxChartNameLength
  · rw [if_pos h1] at h; cases h
  · rw [if_neg h1] at h
    push_neg at h1
    refine ⟨h1.1, by omega, ?_⟩
    by_cases h2 : chartNameMatchString name = true
    · intro c hc
      unfold chartNameMatchString at h2
      rw [Bool.and_eq_true, List.all_eq_true] at h2
      exact h2.2 c hc
    · rw [Bool.not_eq_true] at h2
      rw [if_pos (by simp [h2])] at h
      cases h

theorem no_slash_of_valid (name : String)
    (h : ∀ c ∈ name.data, isNameChar c = true) : '/' ∉ name.data := by
  intro hm
  have := h '/' hm
  simp [isNameChar] at this

theorem no_angle_of_valid (name : String)
    (h : ∀ c ∈ name.data, isNameChar c = true) : noAngle name.data = true := by
  rw [noAngle_iff]
  intro hm
  have := h '<' hm
  simp [isNameChar] at this

/-! ## The values-append step -/

theorem appendToValuesFile_lookup (cwd module : String) (fs : FS) (old : String)
    (h : fs.lookup (resolve cwd ValuesfileName) = some (.file old)) :
    (appendToValuesFile false cwd module fs).lookup (resolve cwd ValuesfileName) =
      some (.file (old ++ transform defaultValues module)) := by
  unfold appendToValuesFile
  simp only [Bool.false_eq_true, if_false, h]
  rw [lookup_setFile]
  simp

theorem appendToValuesFile_stderr (cwd module : String) (fs : FS) :
    (appendToValuesFile false cwd module fs).stderrLines = fs.stderrLines := by
  unfold appendToValuesFile
  simp only [Bool.false_eq_true, if_false]
  cases fs.lookup (resolve cwd ValuesfileName) with
  | none => rw [stderr_setFile]
  | some e => cases e <;> rw [stderr_setFile]

theorem appendToValuesFile_frame (cwd module : String) (fs : FS) (p : String)
    (hp : p ≠ resolve cwd ValuesfileName) :
    (appendToValuesFile false cwd module fs).lookup p = fs.lookup p := by
  unfold appendToValuesFile
  simp only [Bool.false_eq_true, if_false]
  cases fs.lookup (resolve cwd ValuesfileName) with
  | none => rw [lookup_setFile]; simp [hp]
  | some e => cases e <;> (rw [lookup_setFile]; simp [hp])


deriving instance DecidableEq for Except

/-! ## The claims -/

/-- A small filesystem with a base directory and a working directory,
used by concrete witnesses. -/
def fs0 : FS := ⟨[("/base", .dir), ("/cwd", .dir)], []⟩

/-- **C3.** `validateChartName` fails with the length error exactly on the
empty or over-250-character names; a name passing the length check but
containing a character outside `[A-Za-z0-9._-]` fails with the
character-class error; a name matching `[A-Za-z0-9._-]{1,250}` is
accepted; and when validation fails, `Create` surfaces the validator's
error and returns immediately, with the filesystem state untouched. -/
theorem claim_C3 (name cwd dir : String) (fs : FS) (w : String → Bool) (a d : Bool) :
    (name = "" ∨ name.length > 250 → validateChartName name = .error .emptyOrTooLong)
    ∧ (¬(name = "" ∨ name.length > 250) →
        (∃ c ∈ name.data, isNameChar c = false) →
        validateChartName name = .error .invalidChars)
    ∧ (name ≠ "" → name.length ≤ 250 → (∀ c ∈ name.data, isNameChar c = true) →
        validateChartName name = .ok ())
    ∧ (∀ e, validateChartName name = .error e →
        Create w a d cwd name dir fs = ⟨"", some (.invalidName e), fs⟩) := by
  refine ⟨?_, ?_, ?_, ?_⟩
  · intro h
    unfold validateChartName
    rw [show maxChartNameLength = 250 from rfl, if_pos h]
  · intro h1 h2
    unfold validateChartName
    rw [show maxChartNameLength = 250 from rfl, if_neg h1]
    obtain ⟨c, hc, hcf⟩ := h2
    have hall : name.data.all isNameChar = false := by
      cases h : name.data.all isNameChar with
      | false => rfl
      | true =>
        have := List.all_eq_true.mp h c hc
        rw [hcf] at this
        cases this
    rw [if_pos (by simp [chartNameMatchString, hall])]
  · intro h1 h2 h3
    unfold validateChartName
    rw [show maxChartNameLength = 250 from rfl, if_neg (by push_neg; exact ⟨h1, by omega⟩)]
    rw [if_neg]
    simp only [chartNameMatchString, Bool.not_eq_true', Bool.not_eq_false]
    rw [Bool.and_eq_true]
    constructor
    · simp only [Bool.not_eq_true', Bool.not_eq_false]
      rw [List.isEmpty_eq_false_iff_exists_mem]
      cases hd : name.data with
      | nil => exact absurd (String.ext hd) h1
      | cons c cs => exact ⟨c, List.mem_cons_self c cs⟩
    · rw [List.all_eq_true]
      exact h3
  · intro e he
    exact Create_invalidName w a d cwd name dir fs e he

/-- Witness for C3 at concrete inputs: the empty name, a name with a
slash, a valid name, and the fail-fast return of `Create`. -/
theorem claim_C3_witness :
    validateChartName "" = .error .emptyOrTooLong
    ∧ validateChartName "bad/name" = .error .invalidChars
    ∧ validateChartName "demo" = .ok ()
    ∧ Create noFail false false "/cwd" "" "/base" fs0 =
        ⟨"", some (.invalidName .emptyOrTooLong), fs0⟩ := by
  have h1 := (claim_C3 "" "/cwd" "/base" fs0 noFail false false).1 (Or.inl rfl)
  have h2 := (claim_C3 "bad/name" "/cwd" "/base" fs0 noFail false false).2.1
    (by decide) ⟨'/', by decide, by decide⟩
  have h3 := (claim_C3 "demo" "/cwd" "/base" fs0 noFail false false).2.2.1
    (by decide) (by decide) (by decide)
  have h4 := (claim_C3 "" "/cwd" "/base" fs0 noFail false false).2.2.2
    .emptyOrTooLong h1
  exact ⟨h1, h2, h3, h4⟩

/-- The part of `defaultValues` after the placeholder (named so the
prefix-preservation proof can reuse it). -/
def defaultValuesTail : String :=
  ":\n  replicaCount: 1\n\n  image:\n    repository: nginx\n    pullPolicy: IfNotPresent\n    # Overrides the image tag whose default is the chart appVersion.\n    tag: \"\"\n\n  imagePullSecrets: []\n  nameOverride: \"\"\n  fullnameOverride: \"\"\n\n  serviceAccount:\n    # Specifies whether a service account should be created\n    create: true\n    # Annotations to add to the service account\n    annotations: \x7b\x7d\n    # The name of the service account to use.\n    # If not set and create is true, a name is generated using the fullname template\n    name: \"\"\n\n  podAnnotations: \x7b\x7d\n\n  podSecurityContext: \x7b\x7d\n    # fsGroup: 2000\n\n  securityContext: \x7b\x7d\n    # capabilities:\n    #   drop:\n    #   - ALL\n    # readOnlyRootFilesystem: true\n    # runAsNonRoot: true\n    # runAsUser: 1000\n\n  service:\n    type: ClusterIP\n    port: 80\n\n  ingress:\n    enabled: false\n    className: \"\"\n    annotations: \x7b\x7d\n      # kubernetes.io/ingress.class: nginx\n      # kubernetes.io/tls-acme: \"true\"\n    hosts:\n      - host: chart-example.local\n        paths:\n          - path: /\n            pathType: ImplementationSpecific\n    tls: []\n    #  - secretName: chart-example-tls\n    #    hosts:\n    #      - chart-example.local\n\n  resources: \x7b\x7d\n    # We usually recommend not to specify default resources and to leave this as a conscious\n    # choice for the user. This also increases chances charts run on environments with little\n    # resources, such as Minikube. If you do want to specify resources, uncomment the following\n    # lines, adjust them as necessary, and remove the curly braces after \x27resources:\x27.\n    # limits:\n    #   cpu: 100m\n    #   memory: 128Mi\n    # requests:\n    #   cpu: 100m\n    #   memory: 128Mi\n\n  autoscaling:\n    enabled: false\n    minReplicas: 1\n    maxReplicas: 100\n    targetCPUUtilizationPercentage: 80\n    # targetMemoryUtilizationPercentage: 80\n\n  nodeSelector: \x7b\x7d\n\n  tolerations: []\n\n  affinity: \x7b\x7d\n"

set_option maxRecDepth 200000 in
/-- **C10.** The values content is produced by the module-name transform
only, so the `%s` format verb of `defaultValues` survives verbatim: for
every module name, the values file planned in new-unit mode and the
fragment appended in add-module mode begin with the literal
`# Default values for %s.`. -/
theorem claim_C10 (module cdir chartname cwd : String) (fs : FS) :
    "# Default values for %s.".data <+: (transform defaultValues module).data
    ∧ (getBasefiles cdir module chartname).head? =
        some ⟨goJoin cdir ValuesfileName, transform defaultValues module⟩
    ∧ (∀ old, fs.lookup (resolve cwd ValuesfileName) = some (.file old) →
        (appendToValuesFile false cwd module fs).lookup (resolve cwd ValuesfileName) =
          some (.file (old ++ transform defaultValues module))) := by
  refine ⟨?_, rfl, fun old h => appendToValuesFile_lookup cwd module fs old h⟩
  rw [transform_data]
  have hd : defaultValues.data =
      ("# Default values for %s.\n# This is a YAML-formatted file.\n# Declare variables to be passed into your templates.\n\n" : String).data ++ (markerL ++ defaultValuesTail.data) := by
    simp only [defaultValues, defaultValuesTail, String.data_append, List.append_assoc]
    rfl
  rw [hd, markerL_eq, replaceAll_chunk_append _ _ _ _ (by decide)]
  exact (by decide : "# Default values for %s.".data <+:
    ("# Default values for %s.\n# This is a YAML-formatted file.\n# Declare variables to be passed into your templates.\n\n" : String).data).trans (List.prefix_append _ _)


/-- A filesystem whose working directory already holds a values file,
used by concrete witnesses. -/
def fsv : FS := ⟨[("/cwd/values.yaml", .file "x")], []⟩

/-- Witness for C10: appending the fragment for module `alpha` to an
existing values file extends it with content beginning at the literal
header. -/
theorem claim_C10_witness :
    (appendToValuesFile false "/cwd" "alpha" fsv).lookup (resolve "/cwd" ValuesfileName) =
      some (.file ("x" ++ transform defaultValues "alpha")) :=
  (claim_C10 "alpha" "/base/demo" "demo" "/cwd" fsv).2.2 "x" (by decide)

/-- The fixed catalog of placeholder-bearing template bodies. -/
def registryTemplates : List String :=
  [defaultValues, defaultIngress, defaultDeployment, defaultService,
   defaultServiceAccount, defaultHorizontalPodAutoscaler, defaultNotes,
   defaultHelpers, defaultTestConnection]

theorem sprintfS_data (format arg : String) :
    (sprintfS format arg).data = replaceAll "%s".data arg.data format.data := rfl

set_option maxRecDepth 400000 in
/-- **C6.** For every template body in the registry and every module name
drawn from the validator's character class, the transformed output
contains no occurrence of the `<MODULE_NAME>` placeholder; consequently
every content blob `Create` hands to the file writer (base files included)
has all placeholder tokens resolved. -/
theorem claim_C6 (module chartname : String)
    (hm : ∀ c ∈ module.data, isNameChar c = true)
    (hc : ∀ c ∈ chartname.data, isNameChar c = true) :
    (∀ tpl ∈ registryTemplates, ¬ (markerL <:+: (transform tpl module).data))
    ∧ (∀ cdir f, f ∈ getBasefiles cdir module chartname ++ getFiles cdir module →
        ¬ (markerL <:+: f.content.data)) := by
  have hmod : noAngle module.data = true := no_angle_of_valid module hm
  have hcn : noAngle chartname.data = true := no_angle_of_valid chartname hc
  have key : ∀ tpl : String, MarkerSeg markerL tpl.data →
      ¬ (markerL <:+: (transform tpl module).data) := by
    intro tpl hseg
    rw [transform_data, markerL_eq]
    rw [markerL_eq] at hseg
    exact not_infix_of_noAngle _ _
      (noAngle_replaceAll_of_markerSeg "MODULE_NAME>".data module.data tpl.data hseg hmod)
  have hchart : ¬ (markerL <:+: (sprintfS defaultChartfile chartname).data) := by
    rw [markerL_eq]
    apply not_infix_of_noAngle
    rw [noAngle_iff, sprintfS_data]
    intro hmem
    rcases mem_replaceAll _ _ _ _ hmem with h | h
    · exact absurd h ((noAngle_iff defaultChartfile.data).mp (by decide))
    · exact absurd h ((noAngle_iff chartname.data).mp hcn)
  have hignore : ¬ (markerL <:+: defaultIgnore.data) := by
    rw [markerL_eq]
    exact not_infix_of_noAngle _ _ (by decide)
  constructor
  · intro tpl htpl
    simp only [registryTemplates, List.mem_cons, List.not_mem_nil, or_false] at htpl
    rcases htpl with rfl | rfl | rfl | rfl | rfl | rfl | rfl | rfl | rfl
    · exact key _ markerSeg_defaultValues
    · exact key _ markerSeg_defaultIngress
    · exact key _ markerSeg_defaultDeployment
    · exact key _ markerSeg_defaultService
    · exact key _ markerSeg_defaultServiceAccount
    · exact key _ markerSeg_defaultHorizontalPodAutoscaler
    · exact key _ markerSeg_defaultNotes
    · exact key _ markerSeg_defaultHelpers
    · exact key _ markerSeg_defaultTestConnection
  · intro cdir f hf
    simp only [getBasefiles, getFiles, List.mem_append, List.mem_cons,
      List.not_mem_nil, or_false] at hf
    rcases hf with (rfl | rfl | rfl | rfl) | (rfl | rfl | rfl | rfl | rfl | rfl | rfl)
    · exact key _ markerSeg_defaultValues
    · exact hchart
    · exact hignore
    · exact key _ markerSeg_defaultNotes
    · exact key _ markerSeg_defaultIngress
    · exact key _ markerSeg_defaultDeployment
    · exact key _ markerSeg_defaultService
    · exact key _ markerSeg_defaultServiceAccount
    · exact key _ markerSeg_defaultHorizontalPodAutoscaler
    · exact key _ markerSeg_defaultHelpers
    · exact key _ markerSeg_defaultTestConnection

/-- Witness for C6 at the sentinel module name and a concrete chart name. -/
theorem claim_C6_witness :
    ¬ (markerL <:+: (transform defaultValues "main").data) :=
  (claim_C6 "main" "demo" (by decide) (by decide)).1 defaultValues
    (by simp [registryTemplates])

/-- The chart-name placeholder of the clone path (present in the templates
of starter charts and in the sibling generator files of this repository;
the spec's transformer contract names it as the second marker). -/
def chartNameMarker : String := "<CHARTNAME>"

/-- Counterexample for C7 as stated: `CreateFrom` rewrites only the
module-name marker, so a template consisting of the chart-name marker is
handed to the saver unchanged, and the saved chart still contains that
marker. -/
theorem claim_C7_counterexample :
    createFromTemplates [⟨"templates/deployment.yaml", chartNameMarker⟩] =
      [⟨"templates/deployment.yaml", chartNameMarker⟩]
    ∧ chartNameMarker.data <:+:
        (transform chartNameMarker "main").data := by
  constructor
  · decide
  · decide

/-- **C7 (amended).** In the clone path every template, and the raw
`values.yaml` bytes, are rewritten with `transform (· , "main")` before
being handed to the saver, and the module-name marker cannot survive that
rewriting (nor be re-created by it); the chart-name marker is not
rewritten by this path. -/
theorem claim_C7 (templates raw : List ChartFile) :
    (∀ f ∈ createFromTemplates templates, ¬ (markerL <:+: f.data.data))
    ∧ (∀ f ∈ createFromRaw raw, f.name = ValuesfileName →
        ¬ (markerL <:+: f.data.data)) := by
  have hmain : ∀ s : String, ¬ (markerL <:+: (transform s "main").data) := by
    intro s
    rw [transform_data]
    exact not_infix_replaceAll markerL "main".data s.data (by decide) (by decide)
      (by decide)
  constructor
  · intro f hf
    simp only [createFromTemplates, List.mem_map] at hf
    obtain ⟨t, _, rfl⟩ := hf
    exact hmain t.data
  · intro f hf hname
    simp only [createFromRaw, List.mem_map] at hf
    obtain ⟨t, _, rfl⟩ := hf
    by_cases ht : (t.name == ValuesfileName) = true
    · rw [if_pos ht]
      exact hmain t.data
    · rw [if_neg ht] at hname
      exact absurd (beq_iff_eq.mpr hname) ht

/-- Witness for C7 at a concrete one-template chart. -/
theorem claim_C7_witness :
    ¬ (markerL <:+: (transform "<MODULE_NAME>x" "main").data) :=
  (claim_C7 [⟨"templates/a.yaml", "<MODULE_NAME>x"⟩] []).1
    ⟨"templates/a.yaml", transform "<MODULE_NAME>x" "main"⟩
    (by simp [createFromTemplates])


theorem head?_append_left (x y : String) (c : Char) (h : x.data.head? = some c) :
    (x ++ y).data.head? = some c := by
  rw [String.data_append]
  cases hx : x.data with
  | nil => rw [hx] at h; cases h
  | cons a t =>
    rw [hx] at h
    cases h
    rfl

/-- A filesystem in which the working directory already contains a
`values.yaml`, so `Create` takes the add-module branch. -/
def fsa : FS := ⟨[("/base", .dir), ("/cwd", .dir), ("/cwd/values.yaml", .file "v")], []⟩

/-- Counterexample for C8 as stated: in add-module mode (a `values.yaml`
is present in the cwd), the successful `Create` still returns
`Abs(dir)/chartname`, not the cwd-relative templates path of the existing
chart. -/
theorem claim_C8_counterexample :
    (fsa.lookup (resolve "/cwd" ValuesfileName)).isSome = true
    ∧ (Create noFail false false "/cwd" "cache" "/base" fsa).err = none
    ∧ (Create noFail false false "/cwd" "cache" "/base" fsa).path = "/base/cache"
    ∧ "/base/cache" ≠ goJoin "/cwd" TemplatesDir
    ∧ "/base/cache" ≠ TemplatesDir := by
  have h0 : fsa.lookup (goJoin (absPath "/cwd" "/base") "cache") = none := by decide
  have hcr := Create_addModule noFail false false "/cwd" "cache" "/base" fsa
    (by decide) (by decide)
    (fun c hcl => by rw [h0] at hcl; cases hcl)
    (by decide)
  refine ⟨by decide, ?_, ?_, by decide, by decide⟩
  · rw [hcr]
  · rw [hcr]
    decide

/-- **C8 (amended).** On success `Create` returns the absolute
`parentDir/chartname` path in both modes (the source returns `cdir`
unconditionally); the cwd-relative templates path is never returned. -/
theorem claim_C8 (w : String → Bool) (a d : Bool) (cwd chartname dir : String)
    (fs : FS) (h : (Create w a d cwd chartname dir fs).err = none) :
    (Create w a d cwd chartname dir fs).path = goJoin (absPath cwd dir) chartname :=
  Create_success_path w a d cwd chartname dir fs h

/-- Witness for C8 at the add-module scenario. -/
theorem claim_C8_witness :
    (Create noFail false false "/cwd" "cache" "/base" fsa).path = "/base/cache" := by
  have h0 : fsa.lookup (goJoin (absPath "/cwd" "/base") "cache") = none := by decide
  have herr : (Create noFail false false "/cwd" "cache" "/base" fsa).err = none := by
    rw [Create_addModule noFail false false "/cwd" "cache" "/base" fsa
      (by decide) (by decide) (fun c hcl => by rw [h0] at hcl; cases hcl) (by decide)]
  rw [claim_C8 noFail false false "/cwd" "cache" "/base" fsa herr]
  decide

/-- The working directory of the manifest-generator scenario. -/
def fsm : FS := ⟨[("/chart", .dir)], []⟩

set_option maxRecDepth 10000 in
/-- Counterexample for C9 as stated: the kind string reaches the registry
lookup straight from user input, and for a kind outside the closed set
(`"gateway"`), the Go map yields its zero value, so `CreateManifest`
still succeeds and writes a manifest file (with empty content) for the
unknown kind. -/
theorem claim_C9_counterexample :
    ("gateway" ∉ manifests.map Prod.fst)
    ∧ (CreateManifest noFail false "/chart" (some "mychart") "gateway" "web" fsm).2.1 = none
    ∧ (CreateManifest noFail false "/chart" (some "mychart") "gateway" "web" fsm).2.2.lookup
        "/chart/templates/web_gateway.yaml" = some (.file "") := by
  refine ⟨by decide, by decide, by decide⟩

theorem transformManifestName_empty (chartname manifestName : String) :
    transformManifestName "" chartname manifestName = "" := rfl

/-- **C9 (amended).** The registry's kind set is closed (ingress, service,
deployment), but the kind used for the lookup comes from the command's
positional argument; for a kind outside the registry the Go map lookup
yields the zero-value entry, and `CreateManifest` succeeds, writing the
manifest file for the unknown kind with empty content (and appending an
empty values fragment) instead of failing. -/
theorem claim_C9 (kind name chartName cwd : String) (fs : FS)
    (hk : manifests.find? (fun e => e.1 == kind) = none)
    (hv : validateChartName chartName = .ok ())
    (hbase : fs.lookup cwd = some .dir) :
    (CreateManifest noFail false cwd (some chartName) kind name fs).2.1 = none
    ∧ (CreateManifest noFail false cwd (some chartName) kind name fs).2.2.lookup
        (goJoin cwd (TemplatesDir ++ sep ++ name ++ "_" ++ kind ++ ".yaml")) =
      some (.file "") := by
  have hget : manifestsGet kind = ⟨"", ""⟩ := by
    unfold manifestsGet
    rw [hk]
    rfl
  have hfp_head : (TemplatesDir ++ sep ++ name ++ "_" ++ kind ++ ".yaml").data.head? =
      some 't' := by
    apply head?_append_left
    apply head?_append_left
    apply head?_append_left
    apply head?_append_left
    rfl
  have hne : goJoin cwd (TemplatesDir ++ sep ++ name ++ "_" ++ kind ++ ".yaml") ≠
      goJoin cwd ValuesfileName := by
    intro h
    have := goJoin_inj _ _ _ h
    exact ne_of_head? _ _ (by rw [hfp_head]; decide) this
  unfold CreateManifest
  simp only [hv, hbase, writeFile, noFail, Bool.false_eq_true, if_false, hget,
    transformManifestName_empty]
  constructor
  · trivial
  · rw [lookup_setFile]
    rw [if_neg hne]
    rw [lookup_setFile, if_pos rfl]

/-- Witness for C9 at the concrete unknown kind. -/
theorem claim_C9_witness :
    (CreateManifest noFail false "/chart" (some "mychart") "other" "web" fsm).2.1 = none :=
  (claim_C9 "other" "web" "mychart" "/chart" fsm (by decide) (by decide) (by decide)).1


theorem writeFiles_lookup_nf (cwd : String) (files : List ManifestFile) (fs : FS)
    (p : String) :
    (writeFiles noFail cwd files fs).1.lookup p =
      match lastSet cwd files p with
      | some c => some (.file c)
      | none =>
        match fs.lookup p with
        | some e => some e
        | none => if isPlanDir cwd files p then some .dir else none :=
  writeFiles_lookup noFail cwd files fs p (fun _ _ => rfl)

theorem lookup_mem_keys (fs : FS) (p : String) (h : (fs.lookup p).isSome = true) :
    p ∈ fs.entries.map Prod.fst := by
  unfold FS.lookup at h
  obtain ⟨fs_entries, fs_err⟩ := fs
  induction fs_entries with
  | nil => simp [List.find?] at h
  | cons kv rest ih =>
    obtain ⟨k, d⟩ := kv
    by_cases hk : (k == p) = true
    · have : k = p := by simpa using hk
      simp [this]
    · simp only [List.find?, hk] at h
      simp only [List.map_cons, List.mem_cons]
      exact Or.inr (ih h)

/-- A base and a working directory with no `values.yaml` in the cwd:
`Create` takes the new-unit branch. -/
def fsn : FS := ⟨[("/base", .dir), ("/cwd", .dir)], []⟩

/-- The file set actually produced by new-unit mode for chart `demo`:
every module-scoped manifest name carries a double underscore after the
module name. -/
def newUnitDemoFiles : List String :=
  [ "/base/demo/values.yaml", "/base/demo/Chart.yaml", "/base/demo/.helmignore",
    "/base/demo/templates/NOTES.txt",
    "/base/demo/templates/main__ingress.yaml",
    "/base/demo/templates/main__deployment.yaml",
    "/base/demo/templates/main__service.yaml",
    "/base/demo/templates/main__serviceaccount.yaml",
    "/base/demo/templates/main__hpa.yaml",
    "/base/demo/templates/_main__helpers.tpl",
    "/base/demo/templates/tests/main__test-connection.yaml" ]

/-- The directories created along the way. -/
def newUnitDemoDirs : List String :=
  ["/base/demo", "/base/demo/templates", "/base/demo/templates/tests", "/base/demo/charts"]

/-- Counterexample for C2 as stated: the run succeeds, but the
single-underscore name `templates/main_ingress.yaml` enumerated by the
claim is not among the produced files — the produced name carries a
double underscore. -/
theorem claim_C2_counterexample :
    (Create noFail false false "/cwd" "demo" "/base" fsn).err = none
    ∧ (Create noFail false false "/cwd" "demo" "/base" fsn).fs.lookup
        "/base/demo/templates/main_ingress.yaml" = none
    ∧ ((Create noFail false false "/cwd" "demo" "/base" fsn).fs.lookup
        "/base/demo/templates/main__ingress.yaml").isSome = true := by
  have h0 : fsn.lookup (goJoin (absPath "/cwd" "/base") "demo") = none := by decide
  have hcr := Create_newUnit noFail false "/cwd" "demo" "/base" fsn
    (by decide) (by decide) (fun c h => by rw [h0] at h; cases h) (by decide)
  have habs : absPath "/cwd" "/base" = "/base" := by decide
  have hcd : goJoin "/base" "demo" = "/base/demo" := by decide
  rw [habs, hcd] at hcr
  refine ⟨by rw [hcr], ?_, ?_⟩
  · rw [hcr]
    show (FS.mkdirAll _ _).lookup _ = none
    rw [lookup_mkdirAll]
    rw [if_neg (fun hc => absurd hc.1 (by decide))]
    rw [writeFiles_lookup_nf, writeFiles_lookup_nf]
    decide
  · rw [hcr]
    show ((FS.mkdirAll _ _).lookup _).isSome = true
    rw [lookup_mkdirAll]
    rw [if_neg (fun hc => absurd hc.1 (by decide))]
    rw [writeFiles_lookup_nf, writeFiles_lookup_nf]
    decide


/-- **C2 (amended).** New-unit mode with chart name `demo` produces
exactly the enumerated file set under `demo/` — `Chart.yaml`,
`values.yaml`, `.helmignore`, `templates/NOTES.txt`, the five kind
manifests `templates/main__{ingress,deployment,service,serviceaccount,hpa}.yaml`,
`templates/_main__helpers.tpl`,
`templates/tests/main__test-connection.yaml` and the empty `charts/`
directory — every module-scoped manifest name carrying `main` followed by
a double underscore (the `<MODULE>_` placeholder's underscore plus the
literal underscore of the kind suffix). -/
theorem claim_C2 :
    (Create noFail false false "/cwd" "demo" "/base" fsn).err = none
    ∧ (∀ p ∈ newUnitDemoFiles,
        ((Create noFail false false "/cwd" "demo" "/base" fsn).fs.lookup p).isSome = true)
    ∧ (Create noFail false false "/cwd" "demo" "/base" fsn).fs.lookup
        "/base/demo/charts" = some .dir
    ∧ (∀ p, ((Create noFail false false "/cwd" "demo" "/base" fsn).fs.lookup p).isSome = true →
        p ∈ newUnitDemoFiles ++ newUnitDemoDirs ++ ["/base", "/cwd"]) := by
  have h0 : fsn.lookup (goJoin (absPath "/cwd" "/base") "demo") = none := by decide
  have hcr := Create_newUnit noFail false "/cwd" "demo" "/base" fsn
    (by decide) (by decide) (fun c h => by rw [h0] at h; cases h) (by decide)
  have habs : absPath "/cwd" "/base" = "/base" := by decide
  have hcd : goJoin "/base" "demo" = "/base/demo" := by decide
  rw [habs, hcd] at hcr
  refine ⟨by rw [hcr], ?_, ?_, ?_⟩
  · intro p hp
    rw [hcr]
    show ((FS.mkdirAll _ _).lookup _).isSome = true
    rw [lookup_mkdirAll]
    fin_cases hp <;>
      (rw [if_neg (fun hc => absurd hc.1 (by decide))]
       rw [writeFiles_lookup_nf, writeFiles_lookup_nf]
       decide)
  · rw [hcr]
    show (FS.mkdirAll _ _).lookup _ = some .dir
    rw [lookup_mkdirAll]
    rw [if_pos ⟨by decide, by rw [writeFiles_lookup_nf, writeFiles_lookup_nf]; decide⟩]
  · intro p hp
    rw [hcr] at hp
    replace hp : ((((writeFiles noFail "/cwd" (getFiles "/base/demo" "main")
        (writeFiles noFail "/cwd"
          (getBasefiles "/base/demo" "main" "demo") fsn).1).1).mkdirAll
        (goJoin "/base/demo" ChartsDir)).lookup p).isSome = true := hp
    rw [lookup_mkdirAll] at hp
    by_cases hch : p = goJoin "/base/demo" ChartsDir ∧
        ((writeFiles noFail "/cwd" (getFiles "/base/demo" "main")
          (writeFiles noFail "/cwd"
            (getBasefiles "/base/demo" "main" "demo") fsn).1).1).lookup
          (goJoin "/base/demo" ChartsDir) = none
    · have : p = "/base/demo/charts" := by rw [hch.1]; decide
      subst this
      simp [newUnitDemoFiles, newUnitDemoDirs]
    · rw [if_neg hch] at hp
      rw [writeFiles_lookup_nf] at hp
      cases hls2 : lastSet "/cwd" (getFiles "/base/demo" "main") p with
      | some c =>
        obtain ⟨g, hg, hgp, _⟩ := lastSet_some_mem "/cwd" p c _ hls2
        simp only [getFiles, List.mem_cons, List.not_mem_nil, or_false] at hg
        rcases hg with rfl | rfl | rfl | rfl | rfl | rfl | rfl <;>
          (rw [← hgp]; decide)
      | none =>
        rw [hls2] at hp
        rw [writeFiles_lookup_nf] at hp
        cases hls1 : lastSet "/cwd" (getBasefiles "/base/demo" "main" "demo") p with
        | some c =>
          obtain ⟨g, hg, hgp, _⟩ := lastSet_some_mem "/cwd" p c _ hls1
          simp only [getBasefiles, List.mem_cons, List.not_mem_nil, or_false] at hg
          rcases hg with rfl | rfl | rfl | rfl <;>
            (rw [← hgp]; decide)
        | none =>
          rw [hls1] at hp
          cases hf : fsn.lookup p with
          | some e =>
            have := lookup_mem_keys fsn p (by rw [hf]; rfl)
            simp only [fsn, List.map_cons, List.map_nil, List.mem_cons,
              List.not_mem_nil, or_false] at this
            rcases this with rfl | rfl <;> simp [newUnitDemoFiles, newUnitDemoDirs]
          | none =>
            rw [hf] at hp
            by_cases hpd1 : isPlanDir "/cwd" (getBasefiles "/base/demo" "main" "demo") p = true
            · rw [isPlanDir, List.any_eq_true] at hpd1
              obtain ⟨g, hg, hgp⟩ := hpd1
              have hgp' : dirOf (resolve "/cwd" g.path) = p := by simpa using hgp
              simp only [getBasefiles, List.mem_cons, List.not_mem_nil, or_false] at hg
              rcases hg with rfl | rfl | rfl | rfl <;>
                (rw [← hgp']; decide)
            · rw [Bool.not_eq_true] at hpd1
              rw [hpd1] at hp
              by_cases hpd2 : isPlanDir "/cwd" (getFiles "/base/demo" "main") p = true
              · rw [isPlanDir, List.any_eq_true] at hpd2
                obtain ⟨g, hg, hgp⟩ := hpd2
                have hgp' : dirOf (resolve "/cwd" g.path) = p := by simpa using hgp
                simp only [getFiles, List.mem_cons, List.not_mem_nil, or_false] at hg
                rcases hg with rfl | rfl | rfl | rfl | rfl | rfl | rfl <;>
                  (rw [← hgp']; decide)
              · rw [Bool.not_eq_true] at hpd2
                rw [hpd2] at hp
                simp at hp

/-- Witness for C2's universally quantified parts at a concrete path. -/
theorem claim_C2_witness :
    ((Create noFail false false "/cwd" "demo" "/base" fsn).fs.lookup
      "/base/demo/templates/main__service.yaml").isSome = true :=
  claim_C2.2.1 "/base/demo/templates/main__service.yaml" (by decide)


theorem goJoin_empty (b : String) : goJoin "" b = b := by simp [goJoin]

theorem mkdirAll_preserves_some (fs : FS) (d q : String) (x : FSEntry)
    (h : fs.lookup q = some x) : (fs.mkdirAll d).lookup q = some x := by
  rw [lookup_mkdirAll]
  by_cases hc : q = d ∧ fs.lookup d = none
  · rw [hc.1] at h
    rw [hc.2] at h
    cases h
  · rw [if_neg hc]
    exact h

theorem lastSet_eq_none (cwd : String) (p : String) :
    ∀ files : List ManifestFile, (∀ f ∈ files, resolve cwd f.path ≠ p) →
      lastSet cwd files p = none := by
  intro files
  induction files with
  | nil => intro _; rfl
  | cons f rest ih =>
    intro h
    rw [lastSet, ih (fun g hg => h g (List.mem_cons_of_mem f hg))]
    rw [if_neg]
    intro hh
    exact (h f (List.mem_cons_self f rest)) (beq_iff_eq.mp hh)

theorem string_eta (s : String) : (⟨s.data⟩ : String) = s := by
  cases s
  rfl

/-- The parent directory of a path of the form `cwd / mid / leaf`, where
the leaf contains no separator, is `cwd / mid`. -/
theorem dirOf_resolve_mid (cwd mid rel : String) (v : List Char)
    (hcwd : cwd ≠ "")
    (hrel : rel.data = mid.data ++ '/' :: v) (hv : '/' ∉ v)
    (habs : isAbs rel = false) :
    dirOf (resolve cwd rel) = goJoin cwd mid := by
  rw [resolve_rel cwd rel habs]
  have hgd : (goJoin cwd rel).data = (cwd.data ++ '/' :: mid.data) ++ '/' :: v := by
    rw [goJoin_data cwd rel hcwd, hrel]
    simp
  have hstep : goJoin cwd rel = ⟨(cwd.data ++ '/' :: mid.data) ++ '/' :: v⟩ := by
    apply String.ext
    rw [hgd]
  rw [hstep, dirOf_eq _ v hv (by simp)]
  apply String.ext
  rw [goJoin_data cwd mid hcwd]


/-- Shape facts shared by all seven module-scoped plan paths: they are
relative, distinct from the values file, and their parent directory is
distinct from the values file. -/
theorem relpath_facts (cwd : String) (hcwd : cwd ≠ "") (p : String) (v : List Char)
    (hrel : p.data = "templates".data ++ '/' :: v ∨
      p.data = "templates/tests".data ++ '/' :: v)
    (hv : '/' ∉ v) :
    isAbs p = false ∧ resolve cwd p ≠ resolve cwd ValuesfileName ∧
      dirOf (resolve cwd p) ≠ resolve cwd ValuesfileName := by
  have hhead : p.data.head? = some 't' := by
    rcases hrel with h | h <;> rw [h] <;> rfl
  have habs : isAbs p = false := isAbs_of_head p 't' hhead (by decide)
  have hvabs : isAbs ValuesfileName = false := by decide
  refine ⟨habs, ?_, ?_⟩
  · rw [resolve_rel cwd p habs, resolve_rel cwd ValuesfileName hvabs]
    intro h
    exact ne_of_head? p ValuesfileName (by rw [hhead]; decide)
      (goJoin_inj cwd p ValuesfileName h)
  · rcases hrel with h | h
    · rw [dirOf_resolve_mid cwd "templates" p v hcwd h hv habs,
        resolve_rel cwd ValuesfileName hvabs]
      intro hcontra
      exact absurd (goJoin_inj cwd "templates" ValuesfileName hcontra) (by decide)
    · rw [dirOf_resolve_mid cwd "templates/tests" p v hcwd h hv habs,
        resolve_rel cwd ValuesfileName hvabs]
      intro hcontra
      exact absurd (goJoin_inj cwd "templates/tests" ValuesfileName hcontra) (by decide)

/-- Every file of the add-module plan is relative, distinct from
`values.yaml`, and has a parent directory distinct from `values.yaml`. -/
theorem addPlan_facts (cwd : String) (hcwd : cwd ≠ "") (n : String)
    (hns : '/' ∉ n.data) :
    ∀ f ∈ getFiles "" n,
      isAbs f.path = false ∧
        resolve cwd f.path ≠ resolve cwd ValuesfileName ∧
        dirOf (resolve cwd f.path) ≠ resolve cwd ValuesfileName := by
  intro f hf
  simp only [getFiles, goJoin_empty, List.mem_cons, List.not_mem_nil, or_false] at hf
  have hsplit : ∀ suf : List Char, '/' ∉ suf → '/' ∉ n.data ++ suf := by
    intro suf hsuf h
    rcases List.mem_append.mp h with h | h
    · exact hns h
    · exact hsuf h
  rcases hf with rfl | rfl | rfl | rfl | rfl | rfl | rfl
  · refine relpath_facts cwd hcwd _ (n.data ++ "__ingress.yaml".data)
      (Or.inl ?_) (hsplit _ (by decide))
    rw [tmn_IngressFileName]
    simp only [String.data_append]
    simp
  · refine relpath_facts cwd hcwd _ (n.data ++ "__deployment.yaml".data)
      (Or.inl ?_) (hsplit _ (by decide))
    rw [tmn_DeploymentName]
    simp only [String.data_append]
    simp
  · refine relpath_facts cwd hcwd _ (n.data ++ "__service.yaml".data)
      (Or.inl ?_) (hsplit _ (by decide))
    rw [tmn_ServiceName]
    simp only [String.data_append]
    simp
  · refine relpath_facts cwd hcwd _ (n.data ++ "__serviceaccount.yaml".data)
      (Or.inl ?_) (hsplit _ (by decide))
    rw [tmn_ServiceAccountName]
    simp only [String.data_append]
    simp
  · refine relpath_facts cwd hcwd _ (n.data ++ "__hpa.yaml".data)
      (Or.inl ?_) (hsplit _ (by decide))
    rw [tmn_HorizontalPodAutoscalerName]
    simp only [String.data_append]
    simp
  · refine relpath_facts cwd hcwd _ ('_' :: (n.data ++ "__helpers.tpl".data))
      (Or.inl ?_) ?_
    · rw [tmn_HelpersName]
      simp only [String.data_append]
      simp
    · intro h
      rcases List.mem_cons.mp h with h | h
      · exact absurd h (by decide)
      · exact hsplit _ (by decide) h
  · refine relpath_facts cwd hcwd _ (n.data ++ "__test-connection.yaml".data)
      (Or.inr ?_) (hsplit _ (by decide))
    rw [tmn_TestConnectionName]
    simp only [String.data_append]
    simp


/-- **C1.** With a valid chart name and an existing base directory,
`Create` is a mode dichotomy on the presence of `values.yaml` in the cwd.
Present → add-module mode: success, the module name is the requested
`chartname` (witnessed by the `templates/<name>__service.yaml` plan entry
and by the appended values fragment `transform defaultValues chartname`),
every planned file is written rooted at the cwd (its path is relative and
resolves against the cwd), the values fragment is appended to the existing
`values.yaml`, and nothing outside the plan and `values.yaml` changes.
Absent → new-unit mode: success, the module name is the sentinel `"main"`
(witnessed by the `templates/main__service.yaml` plan entry), the full
base-file and module-file set is written, each planned path rooted at
`cdir = Abs(dir)/chartname`, and the empty `charts/` dependency directory
exists afterwards. -/
theorem claim_C1 (cwd chartname dir : String) (fs : FS)
    (hcwd : cwd ≠ "")
    (hv : validateChartName chartname = .ok ())
    (hbase : fs.lookup (absPath cwd dir) = some .dir)
    (hcdir : ∀ c, fs.lookup (goJoin (absPath cwd dir) chartname) ≠ some (.file c)) :
    ((fs.lookup (resolve cwd ValuesfileName)).isSome = true →
      (Create noFail false false cwd chartname dir fs).err = none
      ∧ (∀ f ∈ getFiles "" chartname,
          resolve cwd f.path = goJoin cwd f.path
          ∧ ∃ g ∈ getFiles "" chartname,
              resolve cwd g.path = resolve cwd f.path
              ∧ (Create noFail false false cwd chartname dir fs).fs.lookup
                  (resolve cwd f.path) = some (.file g.content))
      ∧ (∃ f ∈ getFiles "" chartname,
          f.path = "templates/" ++ chartname ++ "__service.yaml"
          ∧ f.content = transform defaultService chartname)
      ∧ (∀ old, fs.lookup (resolve cwd ValuesfileName) = some (.file old) →
          (Create noFail false false cwd chartname dir fs).fs.lookup
              (resolve cwd ValuesfileName)
            = some (.file (old ++ transform defaultValues chartname)))
      ∧ (∀ p, lastSet cwd (getFiles "" chartname) p = none →
          isPlanDir cwd (getFiles "" chartname) p = false →
          p ≠ resolve cwd ValuesfileName →
          (Create noFail false false cwd chartname dir fs).fs.lookup p = fs.lookup p))
    ∧ (fs.lookup (resolve cwd ValuesfileName) = none →
      (Create noFail false false cwd chartname dir fs).err = none
      ∧ (∀ f ∈ getBasefiles (goJoin (absPath cwd dir) chartname) "main" chartname
            ++ getFiles (goJoin (absPath cwd dir) chartname) "main",
          (∃ rel, f.path = goJoin (goJoin (absPath cwd dir) chartname) rel)
          ∧ ∃ g ∈ getBasefiles (goJoin (absPath cwd dir) chartname) "main" chartname
              ++ getFiles (goJoin (absPath cwd dir) chartname) "main",
              resolve cwd g.path = resolve cwd f.path
              ∧ (Create noFail false false cwd chartname dir fs).fs.lookup
                  (resolve cwd f.path) = some (.file g.content))
      ∧ (∃ f ∈ getFiles (goJoin (absPath cwd dir) chartname) "main",
          f.path = goJoin (goJoin (absPath cwd dir) chartname) "templates/main__service.yaml"
          ∧ f.content = transform defaultService "main")
      ∧ ((Create noFail false false cwd chartname dir fs).fs.lookup
          (goJoin (goJoin (absPath cwd dir) chartname) ChartsDir)).isSome = true) := by
  have hva := validateChartName_ok chartname hv
  have hns : '/' ∉ chartname.data := no_slash_of_valid chartname hva.2.2
  have hshape := addPlan_facts cwd hcwd chartname hns
  constructor
  · -- add-module mode
    intro hvp
    have hcr := Create_addModule noFail false false cwd chartname dir fs hv hbase hcdir hvp
    have herr : (Create noFail false false cwd chartname dir fs).err = none := by
      rw [hcr]
    have hfs : (Create noFail false false cwd chartname dir fs).fs =
        appendToValuesFile false cwd chartname
          (writeFiles noFail cwd (getFiles "" chartname) fs).1 := by
      rw [hcr]
    have hw1 : ∀ f ∈ getFiles "" chartname, noFail (resolve cwd f.path) = false :=
      fun _ _ => rfl
    refine ⟨herr, ?_, ?_, ?_, ?_⟩
    · -- every planned file written, rooted at the cwd
      intro f hf
      refine ⟨resolve_rel cwd f.path (hshape f hf).1, ?_⟩
      obtain ⟨g, hg, hgp, hlk⟩ :=
        writeFiles_mem noFail cwd (getFiles "" chartname) fs hw1 f hf
      refine ⟨g, hg, hgp, ?_⟩
      rw [hfs, appendToValuesFile_frame cwd chartname _ _ (hshape f hf).2.1]
      exact hlk
    · -- the module name is the requested chartname
      refine ⟨⟨goJoin "" (transformModuleName ServiceName chartname),
          transform defaultService chartname⟩, ?_, ?_, rfl⟩
      · simp [getFiles]
      · show goJoin "" (transformModuleName ServiceName chartname) = _
        rw [goJoin_empty, tmn_ServiceName]
    · -- the values fragment is appended
      intro old hold
      rw [hfs]
      apply appendToValuesFile_lookup cwd chartname _ old
      rw [writeFiles_frame noFail cwd _ fs hw1 _
        (lastSet_eq_none cwd _ _ (fun f hf => (hshape f hf).2.1)) ?_]
      · exact hold
      · unfold isPlanDir
        rw [List.any_eq_false]
        intro f hf
        simpa using (hshape f hf).2.2
    · -- frame: nothing else changes
      intro p h1 h2 h3
      rw [hfs, appendToValuesFile_frame cwd chartname _ p h3]
      exact writeFiles_frame noFail cwd _ fs hw1 p h1 h2
  · -- new-unit mode
    intro hvn
    have hcr := Create_newUnit noFail false cwd chartname dir fs hv hbase hcdir hvn
    have herr : (Create noFail false false cwd chartname dir fs).err = none := by
      rw [hcr]
    have hfs : (Create noFail false false cwd chartname dir fs).fs =
        ((writeFiles noFail cwd (getFiles (goJoin (absPath cwd dir) chartname) "main")
            (writeFiles noFail cwd
              (getBasefiles (goJoin (absPath cwd dir) chartname) "main" chartname) fs).1).1).mkdirAll
          (goJoin (goJoin (absPath cwd dir) chartname) ChartsDir) := by
      rw [hcr]
    have hwb : ∀ f ∈ getBasefiles (goJoin (absPath cwd dir) chartname) "main" chartname,
        noFail (resolve cwd f.path) = false := fun _ _ => rfl
    have hwf : ∀ f ∈ getFiles (goJoin (absPath cwd dir) chartname) "main",
        noFail (resolve cwd f.path) = false := fun _ _ => rfl
    refine ⟨herr, ?_, ?_, ?_⟩
    · -- the full file set is written, rooted at cdir
      intro f hf
      constructor
      · -- each planned path is cdir-rooted
        simp only [getBasefiles, getFiles, List.mem_append, List.mem_cons,
          List.not_mem_nil, or_false] at hf
        rcases hf with (rfl | rfl | rfl | rfl) | (rfl | rfl | rfl | rfl | rfl | rfl | rfl) <;>
          exact ⟨_, rfl⟩
      · rcases List.mem_append.mp hf with hf1 | hf2
        · obtain ⟨g1, hg1, hgp1, hlk1⟩ :=
            writeFiles_mem noFail cwd _ fs hwb f hf1
          cases hls : lastSet cwd (getFiles (goJoin (absPath cwd dir) chartname) "main")
              (resolve cwd f.path) with
          | some c =>
            obtain ⟨g2, hg2, hgp2, hgc2⟩ := lastSet_some_mem cwd _ c _ hls
            refine ⟨g2, List.mem_append_right _ hg2, hgp2, ?_⟩
            rw [hfs]
            apply mkdirAll_preserves_some
            rw [writeFiles_lookup_nf, hls, hgc2]
          | none =>
            refine ⟨g1, List.mem_append_left _ hg1, hgp1, ?_⟩
            rw [hfs]
            apply mkdirAll_preserves_some
            rw [writeFiles_lookup_nf, hls, hlk1]
        · obtain ⟨g2, hg2, hgp2, hlk2⟩ :=
            writeFiles_mem noFail cwd _
              (writeFiles noFail cwd
                (getBasefiles (goJoin (absPath cwd dir) chartname) "main" chartname) fs).1
              hwf f hf2
          refine ⟨g2, List.mem_append_right _ hg2, hgp2, ?_⟩
          rw [hfs]
          exact mkdirAll_preserves_some _ _ _ _ hlk2
    · -- the module name is the sentinel "main"
      refine ⟨⟨goJoin (goJoin (absPath cwd dir) chartname)
          (transformModuleName ServiceName "main"),
          transform defaultService "main"⟩, ?_, ?_, rfl⟩
      · simp [getFiles]
      · show goJoin _ (transformModuleName ServiceName "main") = _
        rw [tmn_ServiceName,
          show ("templates/" ++ "main" ++ "__service.yaml" : String) =
            "templates/main__service.yaml" from by decide]
    · -- the empty charts/ dependency directory exists
      rw [hfs, lookup_mkdirAll]
      by_cases hc : (writeFiles noFail cwd
          (getFiles (goJoin (absPath cwd dir) chartname) "main")
          (writeFiles noFail cwd
            (getBasefiles (goJoin (absPath cwd dir) chartname) "main" chartname) fs).1).1.lookup
          (goJoin (goJoin (absPath cwd dir) chartname) ChartsDir) = none
      · rw [if_pos ⟨rfl, hc⟩]
        rfl
      · rw [if_neg (fun h => hc h.2)]
        cases hl : (writeFiles noFail cwd
            (getFiles (goJoin (absPath cwd dir) chartname) "main")
            (writeFiles noFail cwd
              (getBasefiles (goJoin (absPath cwd dir) chartname) "main" chartname) fs).1).1.lookup
            (goJoin (goJoin (absPath cwd dir) chartname) ChartsDir) with
        | none => exact absurd hl hc
        | some e => simp


/-- Witness for C1 at a concrete input: `cwd = "/cwd"`, base `"/base"`,
name `"demo"`, no `values.yaml` in the cwd — the new-unit conclusions hold. -/
theorem claim_C1_witness :
    (Create noFail false false "/cwd" "demo" "/base" fs0).err = none ∧
    ((Create noFail false false "/cwd" "demo" "/base" fs0).fs.lookup
      (goJoin (goJoin (absPath "/cwd" "/base") "demo") ChartsDir)).isSome = true := by
  have h := claim_C1 "/cwd" "demo" "/base" fs0 (by decide) (by decide) (by decide)
    (fun c hc => by
      rw [(by decide : fs0.lookup (goJoin (absPath "/cwd" "/base") "demo") = none)] at hc
      exact Option.noConfusion hc)
  have h2 := h.2 (by decide)
  exact ⟨h2.1, h2.2.2.2⟩


/-- Two write passes with no last-write at a path, followed by `MkdirAll`,
never turn a non-file entry into a file. -/
theorem step_no_file (C : Prop) [Decidable C] (b1 b2 : Bool) (X : Option FSEntry)
    (hX : ∀ c, X ≠ some (.file c)) (c : String) :
    stepM C (stepL none b2 (stepL none b1 X)) ≠ some (.file c) := by
  cases X with
  | some e =>
    cases e with
    | file s => exact absurd rfl (hX s)
    | dir => by_cases hC : C <;> simp [stepL, stepM, hC]
  | none => cases b1 <;> cases b2 <;> by_cases hC : C <;> simp [stepL, stepM, hC]

/-- **C5.** Running new-unit mode twice with the same name and target
directory: provided the run-1 preconditions hold and the scaffolding plan
does not collide with the probed paths (base directory, chart directory,
cwd `values.yaml`), the second run also succeeds (a pre-existing file is
never an error), the final filesystem entries are pointwise identical to
those after the first run, and the second run appends to the diagnostic
stream exactly one overwrite warning per planned (hence pre-existing)
file, in plan order. -/
theorem claim_C5 (cwd chartname dir : String) (fs : FS)
    (hv : validateChartName chartname = .ok ())
    (hbase : fs.lookup (absPath cwd dir) = some .dir)
    (hcdir : ∀ c, fs.lookup (goJoin (absPath cwd dir) chartname) ≠ some (.file c))
    (hvals : fs.lookup (resolve cwd ValuesfileName) = none)
    (hbL1 : lastSet cwd (getBasefiles (goJoin (absPath cwd dir) chartname) "main" chartname) (absPath cwd dir) = none)
    (hbL2 : lastSet cwd (getFiles (goJoin (absPath cwd dir) chartname) "main") (absPath cwd dir) = none)
    (hcL1 : lastSet cwd (getBasefiles (goJoin (absPath cwd dir) chartname) "main" chartname) (goJoin (absPath cwd dir) chartname) = none)
    (hcL2 : lastSet cwd (getFiles (goJoin (absPath cwd dir) chartname) "main") (goJoin (absPath cwd dir) chartname) = none)
    (hvL1 : lastSet cwd (getBasefiles (goJoin (absPath cwd dir) chartname) "main" chartname) (resolve cwd ValuesfileName) = none)
    (hvL2 : lastSet cwd (getFiles (goJoin (absPath cwd dir) chartname) "main") (resolve cwd ValuesfileName) = none)
    (hvD1 : isPlanDir cwd (getBasefiles (goJoin (absPath cwd dir) chartname) "main" chartname) (resolve cwd ValuesfileName) = false)
    (hvD2 : isPlanDir cwd (getFiles (goJoin (absPath cwd dir) chartname) "main") (resolve cwd ValuesfileName) = false)
    (hvC : resolve cwd ValuesfileName ≠ (goJoin (goJoin (absPath cwd dir) chartname) ChartsDir)) :
    (Create noFail false false cwd chartname dir
        (Create noFail false false cwd chartname dir fs).fs).err = none
    ∧ (∀ p,
        (Create noFail false false cwd chartname dir
            (Create noFail false false cwd chartname dir fs).fs).fs.lookup p =
          (Create noFail false false cwd chartname dir fs).fs.lookup p)
    ∧ (Create noFail false false cwd chartname dir
          (Create noFail false false cwd chartname dir fs).fs).fs.stderrLines =
        (Create noFail false false cwd chartname dir fs).fs.stderrLines ++
          ((getBasefiles (goJoin (absPath cwd dir) chartname) "main" chartname) ++ (getFiles (goJoin (absPath cwd dir) chartname) "main")).map (fun f => overwriteWarning f.path) := by
  have hw1 : ∀ f ∈ (getBasefiles (goJoin (absPath cwd dir) chartname) "main" chartname), noFail (resolve cwd f.path) = false := fun _ _ => rfl
  have hw2 : ∀ f ∈ (getFiles (goJoin (absPath cwd dir) chartname) "main"), noFail (resolve cwd f.path) = false := fun _ _ => rfl
  have hcr1 := Create_newUnit noFail false cwd chartname dir fs hv hbase hcdir hvals
  have hfs1 : (Create noFail false false cwd chartname dir fs).fs = ((writeFiles noFail cwd (getFiles (goJoin (absPath cwd dir) chartname) "main") (writeFiles noFail cwd (getBasefiles (goJoin (absPath cwd dir) chartname) "main" chartname) fs).1).1.mkdirAll (goJoin (goJoin (absPath cwd dir) chartname) ChartsDir)) := by
    rw [hcr1]
  have hpt1 : ∀ p, ((writeFiles noFail cwd (getFiles (goJoin (absPath cwd dir) chartname) "main") (writeFiles noFail cwd (getBasefiles (goJoin (absPath cwd dir) chartname) "main" chartname) fs).1).1.mkdirAll (goJoin (goJoin (absPath cwd dir) chartname) ChartsDir)).lookup p =
      stepM (p = (goJoin (goJoin (absPath cwd dir) chartname) ChartsDir))
        (stepL (lastSet cwd (getFiles (goJoin (absPath cwd dir) chartname) "main") p) (isPlanDir cwd (getFiles (goJoin (absPath cwd dir) chartname) "main") p)
          (stepL (lastSet cwd (getBasefiles (goJoin (absPath cwd dir) chartname) "main" chartname) p) (isPlanDir cwd (getBasefiles (goJoin (absPath cwd dir) chartname) "main" chartname) p) (fs.lookup p))) := by
    intro p
    rw [mkdirAll_lookup_stepM, writeFiles_lookup_stepL _ _ _ _ _ hw2,
      writeFiles_lookup_stepL _ _ _ _ _ hw1]
  have hbase2 : ((writeFiles noFail cwd (getFiles (goJoin (absPath cwd dir) chartname) "main") (writeFiles noFail cwd (getBasefiles (goJoin (absPath cwd dir) chartname) "main" chartname) fs).1).1.mkdirAll (goJoin (goJoin (absPath cwd dir) chartname) ChartsDir)).lookup (absPath cwd dir) = some .dir := by
    rw [hpt1, hbL1, hbL2, hbase]
    simp [stepL, stepM]
  have hvals2 : ((writeFiles noFail cwd (getFiles (goJoin (absPath cwd dir) chartname) "main") (writeFiles noFail cwd (getBasefiles (goJoin (absPath cwd dir) chartname) "main" chartname) fs).1).1.mkdirAll (goJoin (goJoin (absPath cwd dir) chartname) ChartsDir)).lookup (resolve cwd ValuesfileName) = none := by
    rw [hpt1, hvL1, hvL2, hvD1, hvD2, hvals]
    simp [stepL, stepM, hvC]
  have hcdir2 : ∀ c, ((writeFiles noFail cwd (getFiles (goJoin (absPath cwd dir) chartname) "main") (writeFiles noFail cwd (getBasefiles (goJoin (absPath cwd dir) chartname) "main" chartname) fs).1).1.mkdirAll (goJoin (goJoin (absPath cwd dir) chartname) ChartsDir)).lookup (goJoin (absPath cwd dir) chartname) ≠ some (.file c) := by
    intro c
    rw [hpt1, hcL1, hcL2]
    exact step_no_file _ _ _ _ hcdir c
  have hcr2 := Create_newUnit noFail false cwd chartname dir ((writeFiles noFail cwd (getFiles (goJoin (absPath cwd dir) chartname) "main") (writeFiles noFail cwd (getBasefiles (goJoin (absPath cwd dir) chartname) "main" chartname) fs).1).1.mkdirAll (goJoin (goJoin (absPath cwd dir) chartname) ChartsDir)) hv hbase2 hcdir2 hvals2
  have herr2 : (Create noFail false false cwd chartname dir ((writeFiles noFail cwd (getFiles (goJoin (absPath cwd dir) chartname) "main") (writeFiles noFail cwd (getBasefiles (goJoin (absPath cwd dir) chartname) "main" chartname) fs).1).1.mkdirAll (goJoin (goJoin (absPath cwd dir) chartname) ChartsDir))).err = none := by
    rw [hcr2]
  have hfs2 : (Create noFail false false cwd chartname dir ((writeFiles noFail cwd (getFiles (goJoin (absPath cwd dir) chartname) "main") (writeFiles noFail cwd (getBasefiles (goJoin (absPath cwd dir) chartname) "main" chartname) fs).1).1.mkdirAll (goJoin (goJoin (absPath cwd dir) chartname) ChartsDir))).fs = ((writeFiles noFail cwd (getFiles (goJoin (absPath cwd dir) chartname) "main") (writeFiles noFail cwd (getBasefiles (goJoin (absPath cwd dir) chartname) "main" chartname) ((writeFiles noFail cwd (getFiles (goJoin (absPath cwd dir) chartname) "main") (writeFiles noFail cwd (getBasefiles (goJoin (absPath cwd dir) chartname) "main" chartname) fs).1).1.mkdirAll (goJoin (goJoin (absPath cwd dir) chartname) ChartsDir))).1).1.mkdirAll (goJoin (goJoin (absPath cwd dir) chartname) ChartsDir)) := by
    rw [hcr2]
  refine ⟨?_, ?_, ?_⟩
  · rw [hfs1]
    exact herr2
  · intro p
    rw [hfs1, hfs2]
    have hpt2 : ((writeFiles noFail cwd (getFiles (goJoin (absPath cwd dir) chartname) "main") (writeFiles noFail cwd (getBasefiles (goJoin (absPath cwd dir) chartname) "main" chartname) ((writeFiles noFail cwd (getFiles (goJoin (absPath cwd dir) chartname) "main") (writeFiles noFail cwd (getBasefiles (goJoin (absPath cwd dir) chartname) "main" chartname) fs).1).1.mkdirAll (goJoin (goJoin (absPath cwd dir) chartname) ChartsDir))).1).1.mkdirAll (goJoin (goJoin (absPath cwd dir) chartname) ChartsDir)).lookup p =
        stepM (p = (goJoin (goJoin (absPath cwd dir) chartname) ChartsDir))
          (stepL (lastSet cwd (getFiles (goJoin (absPath cwd dir) chartname) "main") p) (isPlanDir cwd (getFiles (goJoin (absPath cwd dir) chartname) "main") p)
            (stepL (lastSet cwd (getBasefiles (goJoin (absPath cwd dir) chartname) "main" chartname) p) (isPlanDir cwd (getBasefiles (goJoin (absPath cwd dir) chartname) "main" chartname) p) (((writeFiles noFail cwd (getFiles (goJoin (absPath cwd dir) chartname) "main") (writeFiles noFail cwd (getBasefiles (goJoin (absPath cwd dir) chartname) "main" chartname) fs).1).1.mkdirAll (goJoin (goJoin (absPath cwd dir) chartname) ChartsDir)).lookup p))) := by
      rw [mkdirAll_lookup_stepM, writeFiles_lookup_stepL _ _ _ _ _ hw2,
        writeFiles_lookup_stepL _ _ _ _ _ hw1]
    rw [hpt2, hpt1 p]
    exact step_idem _ _ _ _ _ _
  · have hpres1 : ∀ f ∈ (getBasefiles (goJoin (absPath cwd dir) chartname) "main" chartname), (((writeFiles noFail cwd (getFiles (goJoin (absPath cwd dir) chartname) "main") (writeFiles noFail cwd (getBasefiles (goJoin (absPath cwd dir) chartname) "main" chartname) fs).1).1.mkdirAll (goJoin (goJoin (absPath cwd dir) chartname) ChartsDir)).lookup (resolve cwd f.path)).isSome := by
      intro f hf
      obtain ⟨g, hg, hgp, hlk⟩ := writeFiles_mem noFail cwd (getBasefiles (goJoin (absPath cwd dir) chartname) "main" chartname) fs hw1 f hf
      apply mkdirAll_isSome_mono
      apply writeFiles_isSome_mono _ _ _ _ hw2
      rw [hlk]
      rfl
    have hpres2 : ∀ f ∈ (getFiles (goJoin (absPath cwd dir) chartname) "main"), ((writeFiles noFail cwd (getBasefiles (goJoin (absPath cwd dir) chartname) "main" chartname) ((writeFiles noFail cwd (getFiles (goJoin (absPath cwd dir) chartname) "main") (writeFiles noFail cwd (getBasefiles (goJoin (absPath cwd dir) chartname) "main" chartname) fs).1).1.mkdirAll (goJoin (goJoin (absPath cwd dir) chartname) ChartsDir))).1.lookup (resolve cwd f.path)).isSome := by
      intro f hf
      obtain ⟨g, hg, hgp, hlk⟩ := writeFiles_mem noFail cwd (getFiles (goJoin (absPath cwd dir) chartname) "main") (writeFiles noFail cwd (getBasefiles (goJoin (absPath cwd dir) chartname) "main" chartname) fs).1 hw2 f hf
      apply writeFiles_isSome_mono _ _ _ _ hw1
      apply mkdirAll_isSome_mono
      rw [hlk]
      rfl
    rw [hfs1, hfs2]
    show ((writeFiles noFail cwd (getFiles (goJoin (absPath cwd dir) chartname) "main") (writeFiles noFail cwd (getBasefiles (goJoin (absPath cwd dir) chartname) "main" chartname) ((writeFiles noFail cwd (getFiles (goJoin (absPath cwd dir) chartname) "main") (writeFiles noFail cwd (getBasefiles (goJoin (absPath cwd dir) chartname) "main" chartname) fs).1).1.mkdirAll (goJoin (goJoin (absPath cwd dir) chartname) ChartsDir))).1).1.mkdirAll (goJoin (goJoin (absPath cwd dir) chartname) ChartsDir)).stderrLines = _
    rw [stderr_mkdirAll,
      writeFiles_stderr_allPresent noFail cwd (getFiles (goJoin (absPath cwd dir) chartname) "main") (writeFiles noFail cwd (getBasefiles (goJoin (absPath cwd dir) chartname) "main" chartname) ((writeFiles noFail cwd (getFiles (goJoin (absPath cwd dir) chartname) "main") (writeFiles noFail cwd (getBasefiles (goJoin (absPath cwd dir) chartname) "main" chartname) fs).1).1.mkdirAll (goJoin (goJoin (absPath cwd dir) chartname) ChartsDir))).1 hw2 hpres2,
      writeFiles_stderr_allPresent noFail cwd (getBasefiles (goJoin (absPath cwd dir) chartname) "main" chartname) ((writeFiles noFail cwd (getFiles (goJoin (absPath cwd dir) chartname) "main") (writeFiles noFail cwd (getBasefiles (goJoin (absPath cwd dir) chartname) "main" chartname) fs).1).1.mkdirAll (goJoin (goJoin (absPath cwd dir) chartname) ChartsDir)) hw1 hpres1]
    simp [List.append_assoc]


set_option maxRecDepth 100000 in
/-- Witness for C5 at a concrete input: scaffolding `"demo"` under
`"/base"` twice from `"/cwd"` succeeds on the second run too. -/
theorem claim_C5_witness :
    (Create noFail false false "/cwd" "demo" "/base"
      (Create noFail false false "/cwd" "demo" "/base" fs0).fs).err = none := by
  have h := claim_C5 "/cwd" "demo" "/base" fs0 (by decide) (by decide)
    (fun c hc => by
      rw [(by decide : fs0.lookup (goJoin (absPath "/cwd" "/base") "demo") = none)] at hc
      exact Option.noConfusion hc)
    (by decide) (by decide) (by decide) (by decide) (by decide) (by decide)
    (by decide) (by decide) (by decide) (by decide)
  exact h.1


/-- A failing write on the head of the plan stops the loop at once: the
error names that file's resolved path and, apart from a possible overwrite
warning, the state is untouched. -/
theorem writeFiles_fail_head (w : String → Bool) (cwd : String) (f : ManifestFile)
    (rest : List ManifestFile) (fs : FS)
    (hwf : w (resolve cwd f.path) = true) :
    writeFiles w cwd (f :: rest) fs =
      ((if (fs.lookup (resolve cwd f.path)).isSome then
          fs.warn (overwriteWarning f.path) else fs), some (resolve cwd f.path)) := by
  simp [writeFiles, writeFile, hwf]

/-- The write loop aborts on the first failing file: the returned error
names that file, and nothing outside the already-processed prefix (in
particular no later file of the plan) has been written. -/
theorem writeFiles_stop (w : String → Bool) (cwd : String) :
    ∀ (pre : List ManifestFile) (f : ManifestFile) (post : List ManifestFile) (fs : FS),
      (∀ g ∈ pre, w (resolve cwd g.path) = false) →
      w (resolve cwd f.path) = true →
      (writeFiles w cwd (pre ++ f :: post) fs).2 = some (resolve cwd f.path)
      ∧ ∀ p, lastSet cwd pre p = none → isPlanDir cwd pre p = false →
          (writeFiles w cwd (pre ++ f :: post) fs).1.lookup p = fs.lookup p := by
  intro pre
  induction pre with
  | nil =>
    intro f post fs _ hwf
    rw [List.nil_append, writeFiles_fail_head w cwd f post fs hwf]
    refine ⟨rfl, ?_⟩
    intro p _ _
    by_cases hs : (fs.lookup (resolve cwd f.path)).isSome = true
    · simp [hs, lookup_warn]
    · simp [hs]
  | cons g pre' ih =>
    intro f post fs hpre hwf
    have hwg : w (resolve cwd g.path) = false := hpre g (List.mem_cons_self _ _)
    have hpre' : ∀ x ∈ pre', w (resolve cwd x.path) = false :=
      fun x hx => hpre x (List.mem_cons_of_mem _ hx)
    have hstep : writeFiles w cwd ((g :: pre') ++ f :: post) fs =
        writeFiles w cwd (pre' ++ f :: post)
          (((if (fs.lookup (resolve cwd g.path)).isSome then
              fs.warn (overwriteWarning g.path) else fs).mkdirAll
            (dirOf (resolve cwd g.path))).setFile (resolve cwd g.path) g.content) := by
      simp [writeFiles, writeFile, hwg]
    rw [hstep]
    obtain ⟨h1, h2⟩ := ih f post _ hpre' hwf
    refine ⟨h1, ?_⟩
    intro p hls hpd
    rw [lastSet] at hls
    cases hls' : lastSet cwd pre' p with
    | some c => rw [hls'] at hls; cases hls
    | none =>
      rw [hls'] at hls
      have hgp : ¬ (p = resolve cwd g.path) := by
        intro hh
        rw [if_pos (beq_iff_eq.mpr hh.symm)] at hls
        cases hls
      have hpd2 : isPlanDir cwd pre' p = false ∧
          ¬ (p = dirOf (resolve cwd g.path)) := by
        unfold isPlanDir at hpd ⊢
        rw [List.any_cons, Bool.or_eq_false_iff] at hpd
        refine ⟨hpd.2, ?_⟩
        intro hh
        rw [show (dirOf (resolve cwd g.path) == p) = true from beq_iff_eq.mpr hh.symm]
          at hpd
        exact Bool.true_eq_false.mp hpd.1
      rw [h2 p hls' hpd2.1, lookup_setFile, if_neg hgp, lookup_mkdirAll]
      rw [if_neg (fun hc => hpd2.2 hc.1)]
      by_cases hs : (fs.lookup (resolve cwd g.path)).isSome = true
      · simp [hs, lookup_warn]
      · simp [hs]


/-- **C4.** The abort half of the claim is true of the write loop itself:
`writeFiles` stops at the first failing file and returns that IOError (no
later file of the plan is written).  But `Create` does NOT return it: in
add-module mode with the very first planned write failing, the loop
returns the error, yet `Create` discards it — the result's error is
`none`, no manifest file has been written, and the values fragment is
appended anyway.  This contradicts the claim (and `Create`'s own doc
comment, "If Chart.yaml or any directories cannot be created, this will
return an error").  The best-effort half is true: with all writes
succeeding but the values-append failing, `Create` returns success, the
failure is only logged to the diagnostic stream, `values.yaml` is
unchanged, and the written manifest files remain. -/
theorem claim_C4 (cwd chartname dir : String) (fs : FS) (w : String → Bool)
    (hcwd : cwd ≠ "")
    (hv : validateChartName chartname = .ok ())
    (hbase : fs.lookup (absPath cwd dir) = some .dir)
    (hcdir : ∀ c, fs.lookup (goJoin (absPath cwd dir) chartname) ≠ some (.file c))
    (hvp : (fs.lookup (resolve cwd ValuesfileName)).isSome = true) :
    (∀ (pre : List ManifestFile) (f : ManifestFile) (post : List ManifestFile) (fs' : FS),
      (∀ g ∈ pre, w (resolve cwd g.path) = false) →
      w (resolve cwd f.path) = true →
      (writeFiles w cwd (pre ++ f :: post) fs').2 = some (resolve cwd f.path))
    ∧ (w (resolve cwd (goJoin "" (transformModuleName IngressFileName chartname))) = true →
        (writeFiles w cwd (getFiles "" chartname) fs).2 =
          some (resolve cwd (goJoin "" (transformModuleName IngressFileName chartname)))
        ∧ (Create w false false cwd chartname dir fs).err = none
        ∧ (∀ p, p ≠ resolve cwd ValuesfileName →
            (Create w false false cwd chartname dir fs).fs.lookup p = fs.lookup p)
        ∧ (∀ old, fs.lookup (resolve cwd ValuesfileName) = some (.file old) →
            (Create w false false cwd chartname dir fs).fs.lookup
                (resolve cwd ValuesfileName)
              = some (.file (old ++ transform defaultValues chartname))))
    ∧ ((Create noFail true false cwd chartname dir fs).err = none
        ∧ (Create noFail true false cwd chartname dir fs).fs.lookup
              (resolve cwd ValuesfileName)
            = fs.lookup (resolve cwd ValuesfileName)
        ∧ (Create noFail true false cwd chartname dir fs).fs.stderrLines =
            (writeFiles noFail cwd (getFiles "" chartname) fs).1.stderrLines ++ [appendErrorLine]
        ∧ ∀ f ∈ getFiles "" chartname, ∃ g ∈ getFiles "" chartname,
            resolve cwd g.path = resolve cwd f.path ∧
            (Create noFail true false cwd chartname dir fs).fs.lookup (resolve cwd f.path)
              = some (.file g.content)) := by
  have hshape := addPlan_facts cwd hcwd chartname
    (no_slash_of_valid chartname (validateChartName_ok chartname hv).2.2)
  refine ⟨?_, ?_, ?_⟩
  · exact fun pre f post fs' hpre hwf => (writeFiles_stop w cwd pre f post fs' hpre hwf).1
  · intro hw1
    have hcrA := Create_addModule w false false cwd chartname dir fs hv hbase hcdir hvp
    have herrA : (Create w false false cwd chartname dir fs).err = none := by
      rw [hcrA]
    have hfsA : (Create w false false cwd chartname dir fs).fs =
        appendToValuesFile false cwd chartname
          (writeFiles w cwd (getFiles "" chartname) fs).1 := by
      rw [hcrA]
    have hfrail : writeFiles w cwd (getFiles "" chartname) fs =
        ((if (fs.lookup (resolve cwd
              (goJoin "" (transformModuleName IngressFileName chartname)))).isSome then
            fs.warn (overwriteWarning
              (goJoin "" (transformModuleName IngressFileName chartname)))
          else fs),
          some (resolve cwd
            (goJoin "" (transformModuleName IngressFileName chartname)))) := by
      unfold getFiles
      exact writeFiles_fail_head w cwd _ _ fs hw1
    refine ⟨?_, herrA, ?_, ?_⟩
    · rw [hfrail]
    · intro p hp
      rw [hfsA, appendToValuesFile_frame _ _ _ _ hp, hfrail]
      cases hs : (fs.lookup (resolve cwd
          (goJoin "" (transformModuleName IngressFileName chartname)))).isSome <;>
        simp [hs, lookup_warn]
    · intro old hold
      rw [hfsA]
      apply appendToValuesFile_lookup
      rw [hfrail]
      cases hs : (fs.lookup (resolve cwd
          (goJoin "" (transformModuleName IngressFileName chartname)))).isSome <;>
        simp [hs, lookup_warn, hold]
  · have hcrB := Create_addModule noFail true false cwd chartname dir fs hv hbase hcdir hvp
    have herrB : (Create noFail true false cwd chartname dir fs).err = none := by
      rw [hcrB]
    have hfsB : (Create noFail true false cwd chartname dir fs).fs =
        appendToValuesFile true cwd chartname (writeFiles noFail cwd (getFiles "" chartname) fs).1 := by
      rw [hcrB]
    have hwB : ∀ f ∈ getFiles "" chartname, noFail (resolve cwd f.path) = false :=
      fun _ _ => rfl
    refine ⟨herrB, ?_, ?_, ?_⟩
    · rw [hfsB]
      show ((writeFiles noFail cwd (getFiles "" chartname) fs).1.warn appendErrorLine).lookup (resolve cwd ValuesfileName) = _
      rw [lookup_warn]
      apply writeFiles_frame noFail cwd _ fs hwB _
        (lastSet_eq_none cwd _ _ (fun f hf => (hshape f hf).2.1))
      unfold isPlanDir
      rw [List.any_eq_false]
      intro f hf
      simpa using (hshape f hf).2.2
    · rw [hfsB]
      show ((writeFiles noFail cwd (getFiles "" chartname) fs).1.warn appendErrorLine).stderrLines = _
      rw [stderr_warn]
    · intro f hf
      obtain ⟨g, hg, hgp, hlk⟩ := writeFiles_mem noFail cwd _ fs hwB f hf
      refine ⟨g, hg, hgp, ?_⟩
      rw [hfsB]
      show ((writeFiles noFail cwd (getFiles "" chartname) fs).1.warn appendErrorLine).lookup (resolve cwd f.path) = _
      rw [lookup_warn]
      exact hlk


set_option maxRecDepth 100000 in
/-- Witness for C4 at a concrete input: adding module `"demo"` from
`"/cwd"` (which has a `values.yaml`) with the write of
`/cwd/templates/demo__ingress.yaml` failing — the write loop returns the
error, `Create` returns success anyway; and with a values-append failure
instead, `Create` also returns success. -/
theorem claim_C4_witness :
    (writeFiles (fun p => p == "/cwd/templates/demo__ingress.yaml") "/cwd"
        (getFiles "" "demo") fsa).2 =
      some (resolve "/cwd" (goJoin "" (transformModuleName IngressFileName "demo")))
    ∧ (Create (fun p => p == "/cwd/templates/demo__ingress.yaml") false false
        "/cwd" "demo" "/base" fsa).err = none
    ∧ (Create noFail true false "/cwd" "demo" "/base" fsa).err = none := by
  have h := claim_C4 "/cwd" "demo" "/base" fsa
    (fun p => p == "/cwd/templates/demo__ingress.yaml")
    (by decide) (by decide) (by decide)
    (fun c hc => by
      rw [(by decide : fsa.lookup (goJoin (absPath "/cwd" "/base") "demo") = none)] at hc
      exact Option.noConfusion hc)
    (by decide)
  have hA := h.2.1 (by decide)
  exact ⟨hA.1, hA.2.1, h.2.2.1⟩

end Chartutil
